import Mathlib

/-!
Verification of the dockerfile generator.

A shallow embedding of the `dockerfile` package (Dockerfile/.dockerignore
generation for model-serving images), together with proofs of the
behavioural properties claimed of it.

Modelling conventions:

* Go strings are Lean `String`s.  The Go standard-library string helpers
  the package uses (`strings.Split` with separator `"\n"`, `strings.Join`,
  `strings.TrimSpace`, `strings.Contains(s, "\n")`, `path.Join`,
  `filepath.Join`) are re-implemented below over `List Char` so that they
  are transparent to the kernel; each carries a comment naming the Go
  function it models.
* External collaborators (the parsed configuration, the version matrix of
  the base-image generator, the CUDA tag lookup, the platform-specific
  requirements computation, and weight discovery) enter as data/function
  fields of the `Config`/`Generator` structures.  Filesystem side effects
  (temp-directory creation, the file write of `writeTemp`) do not influence the
  generated text beyond the paths embedded in it; the paths are fields and
  the writes are modelled as succeeding.
* Logging (`console.Warnf`, `console.Debugf`) is dropped.
-/

namespace Dockerfile

/-! ## Go string primitives -/

/-- Models Go `strings.Split` with a one-character separator, on the
character list: splits at every separator, always returning at least one
(possibly empty) piece. -/
def splitCh (sep : Char) : List Char → List (List Char)
  | [] => [[]]
  | c :: cs =>
    let rest := splitCh sep cs
    if c = sep then [] :: rest
    else
      match rest with
      | l :: ls => (c :: l) :: ls
      | [] => [[c]]

/-- Models Go `strings.Split(s, "\n")`. -/
def splitNL (s : String) : List String :=
  (splitCh '\n' s.data).map (fun cs => String.mk cs)

/-- Models Go `strings.Join(l, sep)`. -/
def goJoin (sep : String) : List String → String
  | [] => ""
  | [a] => a
  | a :: rest => a ++ sep ++ goJoin sep rest

/-- Whitespace characters trimmed by Go `strings.TrimSpace` (ASCII part;
the Unicode space classes do not occur in build configurations). -/
def goIsSpace (c : Char) : Bool :=
  c = ' ' || c = '\t' || c = '\n' || c = '\r' || c = '\x0b' || c = '\x0c'

/-- Models Go `strings.TrimSpace`. -/
def goTrimSpace (s : String) : String :=
  String.mk (((s.data.dropWhile goIsSpace).reverse.dropWhile goIsSpace).reverse)

/-- Models Go `path.Join`/`filepath.Join` for the already-clean segments the
generator joins (a nonempty relative base and a bare file name, or `/src`
and a discovered relative weight path): concatenation with a single
separator.  The additional lexical cleaning Go performs does not apply to
such segments. -/
def goPathJoin (a b : String) : String :=
  if a = "" then b else if b = "" then a else a ++ "/" ++ b

/-- Models Go `strings.HasPrefix(s, pre)`. -/
def goStartsWith (s pre : String) : Bool :=
  pre.data.isPrefixOf s.data

/-- A string with no embedded line break. -/
def noNL (s : String) : Prop := '\n' ∉ s.data

instance (s : String) : Decidable (noNL s) :=
  inferInstanceAs (Decidable ('\n' ∉ s.data))

/-! ## The data model

`config.Config` is an external collaborator: only the accessors the
generator consumes are modelled.  The getters that live in repository code
outside this package (`TorchVersion`, `CUDABaseImageTag`,
`PythonRequirementsForArch`, and the base-image matrix validation) are
function/data fields. -/

/-- One mount directive of a configured run command. -/
structure RunMount where
  type : String
  id : String
  target : String
deriving DecidableEq

/-- One configured run command (`config.RunItem`). -/
structure RunItem where
  command : String
  mounts : List RunMount
deriving DecidableEq

/-- The `build:` section of the configuration that the generator reads. -/
structure BuildSection where
  gpu : Bool
  cuda : String
  pythonVersion : String
  systemPackages : List String
  run : List RunItem
  preInstall : List String

/-- The configuration collaborator.  `torchVersion`/`torchvisionVersion`
model the `(string, bool)` getters; `cudaBaseImageTag` the delegated CUDA
tag resolution; `pythonRequirementsForArch` the platform-specific
requirements computation; `newBaseImageGenerator` the validation of a
{cuda, python, torch} triple against the supported matrix (an error when
unsupported) and `baseImageName` the deterministic name encoding the
validated triple — both live in a sibling file of this package and are
modelled from the spec. -/
structure Config where
  build : BuildSection
  torchVersion : Option String
  torchvisionVersion : Option String
  cudaBaseImageTag : Except String String
  pythonRequirementsForArch : String → String → List String → Except String String
  newBaseImageGenerator : String → String → String → Except String (String × String × String)
  baseImageName : String → String → String → String

/-- The `Generator` struct.  `findWeightsResult` models
`weights.FindWeights(g.fileWalker)` (directory walk, external);
`baseImageSystemPackages` the package-level list defined in a sibling file;
`buildStageDeps` the `COG_EXPERIMENTAL_BUILD_STAGE_DEPS` environment
lookup. -/
structure Generator where
  config : Config
  dir : String
  GOOS : String
  GOARCH : String
  useCudaBaseImage : Bool
  useCogBaseImage : Bool
  tmpDir : String
  relativeTmpDir : String
  findWeightsResult : Except String (List String × List String)
  modelDirs : List String
  modelFiles : List String
  baseImageSystemPackages : List String
  buildStageDeps : String

/-- Source `NewGenerator`.  The temp-directory creation is filesystem I/O; its
results (`tmpDir`, `relativeTmpDir`) are parameters, as are the ambient
`runtime.GOOS` and the external collaborators.  Note that the source
initializes the `GOARCH` field from `runtime.GOOS`. -/
def NewGenerator (config : Config) (dir : String) (runtimeGOOS : String)
    (tmpDir relativeTmpDir : String)
    (findWeightsResult : Except String (List String × List String))
    (baseImageSystemPackages : List String) (buildStageDeps : String) : Generator :=
  { config := config
    dir := dir
    GOOS := runtimeGOOS
    GOARCH := runtimeGOOS
    useCudaBaseImage := true
    useCogBaseImage := false
    tmpDir := tmpDir
    relativeTmpDir := relativeTmpDir
    findWeightsResult := findWeightsResult
    modelDirs := []
    modelFiles := []
    baseImageSystemPackages := baseImageSystemPackages
    buildStageDeps := buildStageDeps }

/-- Source `SetUseCudaBaseImage`: "false" -> false, "true" -> true,
"auto" -> true, "asdf" -> true. -/
def Generator.SetUseCudaBaseImage (g : Generator) (argumentValue : String) : Generator :=
  { g with useCudaBaseImage := argumentValue != "false" }

/-- Source `SetUseCogBaseImage`. -/
def Generator.SetUseCogBaseImage (g : Generator) (useCogBaseImage : Bool) : Generator :=
  { g with useCogBaseImage := useCogBaseImage }

/-- Source `IsUsingCogBaseImage`. -/
def Generator.IsUsingCogBaseImage (g : Generator) : Bool :=
  g.useCogBaseImage

/-! ## Version handling -/

/-- Modelled from the spec: the semantic-version value of
`pkg/util/version` (a repository package not among the given sources),
holding major/minor/patch components. -/
structure Version where
  major : Nat
  minor : Nat
  patch : Nat
deriving DecidableEq

/-- Parses a list of decimal digits. -/
def parseNatPart (s : String) : Option Nat :=
  if s ≠ "" ∧ s.data.all Char.isDigit then
    some (s.data.foldl (fun acc c => acc * 10 + (c.toNat - 48)) 0)
  else
    none

/-- Modelled from the spec: `version.NewVersion` of `pkg/util/version`
(not among the given sources).  A non-empty input must parse as a
semantic version: one to three dot-separated numeric components, missing
components defaulting to zero. -/
def NewVersion (s : String) : Option Version :=
  match (splitCh '.' s.data).map (fun part => parseNatPart (String.mk part)) with
  | [some a] => some ⟨a, 0, 0⟩
  | [some a, some b] => some ⟨a, b, 0⟩
  | [some a, some b, some c] => some ⟨a, b, c⟩
  | _ => none

/-- Source `stripPatchVersion`.  The `console.Warnf` caller reacts to the
`changed` flag; the function itself only computes it. -/
def stripPatchVersion (versionString : String) : Except String (String × Bool) :=
  if versionString = "" then
    .ok ("", false)
  else
    match NewVersion versionString with
    | none => .error ("Invalid version: " ++ versionString)
    | some v =>
      let strippedVersion := toString v.major ++ "." ++ toString v.minor
      let changed := strippedVersion != versionString
      .ok (strippedVersion, changed)

/-! ## Base image resolution -/

/-- The engine-base ("cog base image") branch of `BaseImage`, as its own
definition: normalize the python and torch versions, validate the triple
against the supported matrix, and encode the validated triple as a name. -/
def Generator.cogBaseImage (g : Generator) : Except String String :=
  match stripPatchVersion g.config.build.pythonVersion with
  | .error e => .error e
  | .ok (pythonVersion, _) =>
    match stripPatchVersion ((g.config.torchVersion).getD "") with
    | .error e => .error e
    | .ok (torchVersion, _) =>
      match g.config.newBaseImageGenerator g.config.build.cuda pythonVersion torchVersion with
      | .error e => .error e
      | .ok (cv, pv, tv) => .ok (g.config.baseImageName cv pv tv)

/-- Source `BaseImage`. -/
def Generator.BaseImage (g : Generator) : Except String String :=
  if g.useCogBaseImage then
    g.cogBaseImage
  else if g.config.build.gpu && g.useCudaBaseImage then
    g.config.cudaBaseImageTag
  else
    .ok ("python:" ++ g.config.build.pythonVersion ++ "-slim")

/-! ## Instruction fragments -/

/-- The text of `preamble`. -/
def preambleStr : String :=
  "ENV DEBIAN_FRONTEND=noninteractive\nENV PYTHONUNBUFFERED=1\nENV LD_LIBRARY_PATH=$LD_LIBRARY_PATH:/usr/lib/x86_64-linux-gnu:/usr/local/nvidia/lib64:/usr/local/nvidia/bin\nENV NVIDIA_DRIVER_CAPABILITIES=all"

/-- Source `preamble`. -/
def Generator.preamble (_g : Generator) : String := preambleStr

/-- The text of `installTini`. -/
def installTiniStr : String :=
  goJoin "\n"
    ["RUN --mount=type=cache,target=/var/cache/apt,sharing=locked set -eux; \\\napt-get update -qq && \\\napt-get install -qqy --no-install-recommends curl; \\\nrm -rf /var/lib/apt/lists/*; \\\nTINI_VERSION=v0.19.0; \\\nTINI_ARCH=\"$(dpkg --print-architecture)\"; \\\ncurl -sSL -o /sbin/tini \"https://github.com/krallin/tini/releases/download/${TINI_VERSION}/tini-${TINI_ARCH}\"; \\\nchmod +x /sbin/tini",
     "ENTRYPOINT [\"/sbin/tini\", \"--\"]"]

/-- Source `installTini`. -/
def Generator.installTini (_g : Generator) : String := installTiniStr

/-- The fixed head of the system-package install instruction emitted by
`aptInstalls`, split after `"RUN "`. -/
def aptTailStr : String :=
  "--mount=type=cache,target=/var/cache/apt,sharing=locked apt-get update -qq && apt-get install -qqy "

/-- The fixed head of the system-package install instruction. -/
def aptHeadStr : String := "RUN " ++ aptTailStr

/-- The fixed tail of the system-package install instruction. -/
def aptEndStr : String := " && rm -rf /var/lib/apt/lists/*"

/-- Source `aptInstalls`. -/
def Generator.aptInstalls (g : Generator) : Except String String :=
  let packages := g.config.build.systemPackages
  if packages.length = 0 then
    .ok ""
  else
    let packages :=
      if g.useCogBaseImage then
        packages.filter (fun pkg => !(g.baseImageSystemPackages.contains pkg))
      else
        packages
    .ok (aptHeadStr ++ goJoin " " packages ++ aptEndStr)

/-- The lines of the `installPythonCUDA` text (the Go function builds the
same text as one raw string plus a `Sprintf`; it is written here as its
line list, joined below, which concatenates to the identical string). -/
def cudaLines (py : String) : List String :=
  ["ENV PATH=\"/root/.pyenv/shims:/root/.pyenv/bin:$PATH\"",
   "RUN --mount=type=cache,target=/var/cache/apt,sharing=locked apt-get update -qq && apt-get install -qqy --no-install-recommends \\",
   "\tmake \\",
   "\tbuild-essential \\",
   "\tlibssl-dev \\",
   "\tzlib1g-dev \\",
   "\tlibbz2-dev \\",
   "\tlibreadline-dev \\",
   "\tlibsqlite3-dev \\",
   "\twget \\",
   "\tcurl \\",
   "\tllvm \\",
   "\tlibncurses5-dev \\",
   "\tlibncursesw5-dev \\",
   "\txz-utils \\",
   "\ttk-dev \\",
   "\tlibffi-dev \\",
   "\tliblzma-dev \\",
   "\tgit \\",
   "\tca-certificates \\",
   "\t&& rm -rf /var/lib/apt/lists/*",
   "RUN curl -s -S -L https://raw.githubusercontent.com/pyenv/pyenv-installer/master/bin/pyenv-installer | bash && \\",
   "\tgit clone https://github.com/momo-lab/pyenv-install-latest.git \"$(pyenv root)\"/plugins/pyenv-install-latest && \\",
   "\tpyenv install-latest \"" ++ py ++ "\" && \\",
   "\tpyenv global $(pyenv install-latest --print \"" ++ py ++ "\") && \\",
   "\tpip install \"wheel<1\""]

/-- Source `installPythonCUDA` (always succeeds; the error return is vestigial). -/
def Generator.installPythonCUDA (g : Generator) : Except String String :=
  .ok (goJoin "\n" (cudaLines g.config.build.pythonVersion))

/-- Source `installPython`. -/
def Generator.installPython (g : Generator) : Except String String :=
  if g.config.build.gpu && g.useCudaBaseImage && !g.useCogBaseImage then
    g.installPythonCUDA
  else
    .ok ""

/-- The embedded cog wheel bytes (`cogWheelEmbed`); the contents are
written to disk, never into the generated text. -/
def cogWheelEmbed : String := ""

/-- Source `writeTemp`.  The directory creation and file write are filesystem
I/O modelled as succeeding; the returned copy instruction and
in-container path are what reaches the generated text. -/
def Generator.writeTemp (g : Generator) (filename : String) (_contents : String) :
    List String × String :=
  (["COPY " ++ goPathJoin g.relativeTmpDir filename ++ " /tmp/" ++ filename],
   "/tmp/" ++ filename)

/-- Source `installCog`. -/
def Generator.installCog (g : Generator) : Except String String :=
  let cogFilename := "cog-0.0.1.dev-py3-none-any.whl"
  let (lines, containerPath) := g.writeTemp cogFilename cogWheelEmbed
  let lines := lines ++
    ["RUN --mount=type=cache,target=/root/.cache/pip pip install -t /dep " ++ containerPath]
  .ok (goJoin "\n" lines)

/-- The torch/torchvision exclusion list built at the top of
`pipInstalls`. -/
def Generator.pipExcludes (g : Generator) : List String :=
  let excludePackages :=
    match g.config.torchVersion with
    | some torchVersion => ["torch==" ++ torchVersion]
    | none => []
  match g.config.torchvisionVersion with
  | some torchvisionVersion => excludePackages ++ ["torchvision==" ++ torchvisionVersion]
  | none => excludePackages

/-- Source `pipInstalls`; the exclusion-list construction at its top is
`Generator.pipExcludes` above.  The caching of the requirements text in
`g.pythonRequirementsContents` only feeds debug logging and is dropped.
The Go form `strings.Trim(s, "")` with an empty cutset is the identity, so the
emptiness test compares the raw text with `""`. -/
def Generator.pipInstalls (g : Generator) : Except String String :=
  match g.config.pythonRequirementsForArch g.GOOS g.GOARCH g.pipExcludes with
  | .error e => .error e
  | .ok reqs =>
    if reqs = "" then
      .ok ""
    else
      let (copyLine, containerPath) := g.writeTemp "requirements.txt" reqs
      .ok (goJoin "\n" [copyLine.headD "", "RUN pip install -r " ++ containerPath])

/-- Source `pipInstallStage`.  The Go `... + " as deps\n" + installCog` and
`fromLine + "\nRUN " + buildStageDeps` concatenations are written as
newline joins of the same lines, which produce identical strings. -/
def Generator.pipInstallStage (g : Generator) : Except String String :=
  match g.installCog with
  | .error e => .error e
  | .ok installCog =>
    match g.config.pythonRequirementsForArch g.GOOS g.GOARCH [] with
    | .error e => .error e
    | .ok reqs =>
      let pipStageImage := "python:" ++ g.config.build.pythonVersion
      if reqs = "" then
        .ok (goJoin "\n" ["FROM " ++ pipStageImage ++ " as deps", installCog])
      else
        let (copyLine, containerPath) := g.writeTemp "requirements.txt" reqs
        let fromLine := "FROM " ++ pipStageImage ++ " as deps"
        let fromLine :=
          if g.buildStageDeps ≠ "" then
            goJoin "\n" [fromLine, "RUN " ++ g.buildStageDeps]
          else
            fromLine
        .ok (goJoin "\n"
          [fromLine, installCog, copyLine.headD "",
           "RUN --mount=type=cache,target=/root/.cache/pip pip install -t /dep -r " ++ containerPath])

/-- Source `copyPipPackagesFromInstallStage`. -/
def Generator.copyPipPackagesFromInstallStage (g : Generator) : String :=
  let py := g.config.build.pythonVersion
  if g.config.build.gpu && (g.useCudaBaseImage || g.useCogBaseImage) then
    "\nRUN --mount=type=bind,from=deps,source=/dep,target=/dep \\\n    cp -rf /dep/* $(pyenv prefix)/lib/python*/site-packages; \\\n    cp -rf /dep/bin/* $(pyenv prefix)/bin; \\\n    pyenv rehash\n"
  else
    "COPY --from=deps --link /dep /usr/local/lib/python" ++ py ++ "/site-packages"

/-! ## Run commands -/

/-- The fixed part of the multiline-run-command error message. -/
def multilineRunMsgHead : String :=
  "One of the commands in \x27run\x27 contains a new line, which won\x27t work. You need to create a new list item in YAML prefixed with \x27-\x27 for each command.\n\nThis is the offending line: "

/-- The secret-mount tokens of a run item. -/
def secretMountTokens (mounts : List RunMount) : List String :=
  mounts.filterMap (fun mount =>
    if mount.type = "secret" then
      some ("--mount=type=secret,id=" ++ mount.id ++ ",target=" ++ mount.target)
    else
      none)

/-- The instruction rendered for one (already newline-checked) run item:
mount tokens are prefixed when the item declares mounts. -/
def renderRunItem (run : RunItem) : String :=
  let command := goTrimSpace run.command
  if run.mounts.length > 0 then
    "RUN " ++ goJoin " " (secretMountTokens run.mounts) ++ " " ++ command
  else
    "RUN " ++ command

/-- The loop body of `runCommands`: renders each command (or fails on the
first command whose trimmed text still embeds a newline —
`strings.Contains(command, "\n")` is newline membership). -/
def runCommandLines : List RunItem → Except String (List String)
  | [] => .ok []
  | run :: rest =>
    let command := goTrimSpace run.command
    if command.data.contains '\n' then
      .error (multilineRunMsgHead ++ command)
    else
      match runCommandLines rest with
      | .error e => .error e
      | .ok lines => .ok (renderRunItem run :: lines)

/-- The combined run-command list: configured commands, then the legacy
`pre_install` commands as plain commands. -/
def Generator.allRunItems (g : Generator) : List RunItem :=
  g.config.build.run ++ g.config.build.preInstall.map (fun command => ⟨command, []⟩)

/-- Source `runCommands`. -/
def Generator.runCommands (g : Generator) : Except String String :=
  match runCommandLines g.allRunItems with
  | .error e => .error e
  | .ok lines => .ok (goJoin "\n" lines)

/-! ## Assembly -/

/-- Source `filterEmpty`. -/
def filterEmpty (list : List String) : List String :=
  list.filter (fun s => s ≠ "")

/-- Source `joinStringsWithoutLineSpace`: split every chunk into lines, drop the
empty lines, rejoin. -/
def joinStringsWithoutLineSpace (chunks : List String) : String :=
  goJoin "\n" (filterEmpty (chunks.flatMap splitNL))

/-- Source `generateInitialSteps`. -/
def Generator.generateInitialSteps (g : Generator) : Except String String :=
  match g.BaseImage with
  | .error e => .error e
  | .ok baseImage =>
  match g.installPython with
  | .error e => .error e
  | .ok installPython =>
  match g.aptInstalls with
  | .error e => .error e
  | .ok aptInstalls =>
  match g.runCommands with
  | .error e => .error e
  | .ok runCommands =>
  if g.useCogBaseImage then
    match g.pipInstalls with
    | .error e => .error e
    | .ok pipInstalls =>
      .ok (joinStringsWithoutLineSpace
        ["#syntax=docker/dockerfile:1.4",
         "FROM " ++ baseImage,
         aptInstalls,
         pipInstalls,
         runCommands])
  else
    match g.pipInstallStage with
    | .error e => .error e
    | .ok pipInstallStage =>
      .ok (joinStringsWithoutLineSpace
        ["#syntax=docker/dockerfile:1.4",
         pipInstallStage,
         "FROM " ++ baseImage,
         g.preamble,
         g.installTini,
         installPython,
         aptInstalls,
         g.copyPipPackagesFromInstallStage,
         runCommands])

/-- Source `GenerateModelBase`. -/
def Generator.GenerateModelBase (g : Generator) : Except String String :=
  match g.generateInitialSteps with
  | .error e => .error e
  | .ok initialSteps =>
    .ok (goJoin "\n"
      [initialSteps,
       "WORKDIR /src",
       "EXPOSE 5000",
       "CMD [\"python\", \"-m\", \"cog.server.http\"]"])

/-- Source `GenerateDockerfileWithoutSeparateWeights`. -/
def Generator.GenerateDockerfileWithoutSeparateWeights (g : Generator) : Except String String :=
  match g.GenerateModelBase with
  | .error e => .error e
  | .ok base => .ok (joinStringsWithoutLineSpace [base, "COPY . /src"])

/-! ## Weights splitting -/

/-- Source `DockerignoreHeader`. -/
def DockerignoreHeader : String :=
  "# generated by replicate/cog\n__pycache__\n*.pyc\n*.pyo\n*.pyd\n.Python\nenv\npip-log.txt\npip-delete-this-directory.txt\n.tox\n.coverage\n.coverage.*\n.cache\nnosetests.xml\ncoverage.xml\n*.cover\n*.log\n.git\n.mypy_cache\n.pytest_cache\n.hypothesis\n"

/-- The `contents += ...` accumulation loops of
`makeDockerignoreForWeights`. -/
def concatMap (f : String → String) : List String → String
  | [] => ""
  | p :: rest => f p ++ concatMap f rest

/-- Source `makeDockerignoreForWeights`: per directory its bare name and a
recursive wildcard, per file its bare name, appended to the header. -/
def makeDockerignoreForWeights (dirs files : List String) : String :=
  let contents :=
    concatMap (fun p => p ++ "\n" ++ p ++ "/**/*\n") dirs ++
    concatMap (fun p => p ++ "\n") files
  DockerignoreHeader ++ contents

/-- Source `generateForWeights`: discover weight paths and emit the weights-only
stage text. -/
def Generator.generateForWeights (g : Generator) :
    Except String (String × List String × List String) :=
  match g.findWeightsResult with
  | .error e => .error e
  | .ok (modelDirs, modelFiles) =>
    let dockerfileContents := "#syntax=docker/dockerfile:1.4\nFROM scratch\n" ++
      String.join ((modelDirs ++ modelFiles).map
        (fun p => "\nCOPY " ++ p ++ " " ++ goPathJoin "/src" p))
    .ok (dockerfileContents, modelDirs, modelFiles)

/-- The splice loop of `GenerateModelBaseWithSeparateWeights`: copy lines
through until the first line starting with `"FROM "`, insert the weights
stage directive before it, keep the rest unchanged. -/
def injectWeightsBase (imageName : String) : List String → List String
  | [] => []
  | line :: rest =>
    if goStartsWith line "FROM " then
      ("FROM " ++ (imageName ++ "-weights") ++ " AS " ++ "weights") :: line :: rest
    else
      line :: injectWeightsBase imageName rest

/-- One weight-copy instruction of the main stage. -/
def weightCopyLine (p : String) : String :=
  "COPY --from=weights --link " ++ goPathJoin "/src" p ++ " " ++ goPathJoin "/src" p

/-- Source `GenerateModelBaseWithSeparateWeights`: returns the weights base
Dockerfile, the main Dockerfile and the .dockerignore contents.  The Go
function stores the discovered paths into `g.modelDirs`/`g.modelFiles`
before using them; no other field changes and nothing else in this
function reads those two fields, so the discovered lists are used
directly here (the stored copies only feed the later
`GenerateWeightsManifest` call, outside the claims). -/
def Generator.GenerateModelBaseWithSeparateWeights (g : Generator) (imageName : String) :
    Except String (String × String × String) :=
  match g.generateForWeights with
  | .error e =>
    .error ("Failed to generate Dockerfile for model weights files: " ++ e)
  | .ok (weightsBase, modelDirs, modelFiles) =>
    match g.generateInitialSteps with
    | .error e => .error e
    | .ok initialSteps =>
      let base := injectWeightsBase imageName (splitNL initialSteps)
      let base := base ++ (modelDirs ++ modelFiles).map weightCopyLine
      let base := base ++
        ["WORKDIR /src",
         "EXPOSE 5000",
         "CMD [\"python\", \"-m\", \"cog.server.http\"]",
         "COPY . /src"]
      .ok (weightsBase, joinStringsWithoutLineSpace base,
        makeDockerignoreForWeights modelDirs modelFiles)

/-! ## Lemmas about the string primitives -/

/-- The char-level join inverse to `splitCh`. -/
def joinCh (sep : Char) : List (List Char) → List Char
  | [] => []
  | [a] => a
  | a :: rest => a ++ sep :: joinCh sep rest

theorem splitCh_ne_nil (sep : Char) (cs : List Char) : splitCh sep cs ≠ [] := by
  induction cs with
  | nil => simp [splitCh]
  | cons c cs ih =>
    simp only [splitCh]
    split
    · simp
    · cases h : splitCh sep cs with
      | nil => exact absurd h ih
      | cons l ls => simp [h]

theorem joinCh_splitCh (sep : Char) (cs : List Char) :
    joinCh sep (splitCh sep cs) = cs := by
  induction cs with
  | nil => rfl
  | cons c cs ih =>
    simp only [splitCh]
    by_cases hc : c = sep
    · subst hc
      simp only [if_pos rfl]
      cases h : splitCh c cs with
      | nil => exact absurd h (splitCh_ne_nil c cs)
      | cons l ls =>
        rw [h] at ih
        simp [joinCh, ih]
    · simp only [if_neg hc]
      cases h : splitCh sep cs with
      | nil => exact absurd h (splitCh_ne_nil sep cs)
      | cons l ls =>
        rw [h] at ih
        cases ls with
        | nil => simpa [joinCh] using ih
        | cons l2 ls2 => simpa [joinCh] using ih

theorem splitCh_append_sep (sep : Char) (xs ys : List Char) :
    splitCh sep (xs ++ sep :: ys) = splitCh sep xs ++ splitCh sep ys := by
  induction xs with
  | nil =>
    cases h : splitCh sep ys with
    | nil => exact absurd h (splitCh_ne_nil sep ys)
    | cons l ls => simp [splitCh, h]
  | cons c cs ih =>
    show splitCh sep (c :: (cs ++ sep :: ys)) = splitCh sep (c :: cs) ++ splitCh sep ys
    simp only [splitCh]
    rw [ih]
    by_cases hc : c = sep
    · rw [if_pos hc, if_pos hc]
      rfl
    · rw [if_neg hc, if_neg hc]
      cases h : splitCh sep cs with
      | nil => exact absurd h (splitCh_ne_nil sep cs)
      | cons l ls => simp

theorem splitCh_of_not_mem (sep : Char) (cs : List Char) (h : sep ∉ cs) :
    splitCh sep cs = [cs] := by
  induction cs with
  | nil => rfl
  | cons c cs ih =>
    simp only [List.mem_cons, not_or] at h
    simp only [splitCh, if_neg (Ne.symm h.1), ih h.2]

theorem not_mem_of_mem_splitCh (sep : Char) (cs : List Char) :
    ∀ l ∈ splitCh sep cs, sep ∉ l := by
  induction cs with
  | nil => simp [splitCh]
  | cons c cs ih =>
    intro l hl
    simp only [splitCh] at hl
    by_cases hc : c = sep
    · rw [if_pos hc] at hl
      rcases List.mem_cons.mp hl with h | h
      · subst h; simp
      · exact ih l h
    · rw [if_neg hc] at hl
      cases h : splitCh sep cs with
      | nil => exact absurd h (splitCh_ne_nil sep cs)
      | cons a as =>
        rw [h] at hl ih
        rcases List.mem_cons.mp hl with h1 | h1
        · subst h1
          intro hmem
          rcases List.mem_cons.mp hmem with h2 | h2
          · exact hc h2.symm
          · exact ih a (List.mem_cons_self a as) h2
        · exact ih l (List.mem_cons_of_mem a h1)

theorem splitCh_joinCh (sep : Char) (L : List (List Char))
    (hL : ∀ l ∈ L, sep ∉ l) (hne : L ≠ []) :
    splitCh sep (joinCh sep L) = L := by
  induction L with
  | nil => exact absurd rfl hne
  | cons a rest ih =>
    cases rest with
    | nil =>
      simp only [joinCh]
      exact splitCh_of_not_mem sep a (hL a (List.mem_cons_self a []))
    | cons b rest2 =>
      have ha : sep ∉ a := hL a (List.mem_cons_self _ _)
      have hrest : ∀ l ∈ b :: rest2, sep ∉ l := fun l hl => hL l (List.mem_cons_of_mem a hl)
      calc splitCh sep (joinCh sep (a :: b :: rest2))
          = splitCh sep (a ++ sep :: joinCh sep (b :: rest2)) := rfl
        _ = splitCh sep a ++ splitCh sep (joinCh sep (b :: rest2)) := splitCh_append_sep ..
        _ = [a] ++ (b :: rest2) := by
              rw [splitCh_of_not_mem sep a ha, ih hrest (by simp)]
        _ = a :: b :: rest2 := rfl

/-! ## String-level lifts -/

theorem mk_data (s : String) : String.mk s.data = s := rfl

theorem nl_data : ("\n" : String).data = ['\n'] := rfl

theorem goJoin_nl_data (L : List String) :
    (goJoin "\n" L).data = joinCh '\n' (L.map String.data) := by
  induction L with
  | nil => rfl
  | cons a rest ih =>
    cases rest with
    | nil => rfl
    | cons b rest2 =>
      show (a ++ "\n" ++ goJoin "\n" (b :: rest2)).data
        = a.data ++ '\n' :: joinCh '\n' ((b :: rest2).map String.data)
      rw [String.data_append, String.data_append, ih, List.append_assoc, nl_data]
      rfl

theorem map_mk_map_data (L : List String) :
    List.map (fun cs => String.mk cs) (List.map String.data L) = L := by
  rw [List.map_map]
  have h : ((fun cs => String.mk cs) ∘ String.data) = id := funext mk_data
  rw [h, List.map_id]

theorem splitNL_goJoin (L : List String) (hL : ∀ l ∈ L, noNL l) (hne : L ≠ []) :
    splitNL (goJoin "\n" L) = L := by
  unfold splitNL
  rw [goJoin_nl_data]
  rw [splitCh_joinCh '\n' (L.map String.data)
    (by intro l hl
        rcases List.mem_map.mp hl with ⟨s, hs, rfl⟩
        exact hL s hs)
    (by intro h
        rw [List.map_eq_nil_iff] at h
        exact hne h)]
  exact map_mk_map_data L

theorem splitNL_append_nl (a b : String) :
    splitNL (a ++ "\n" ++ b) = splitNL a ++ splitNL b := by
  unfold splitNL
  have h : (a ++ "\n" ++ b).data = a.data ++ '\n' :: b.data := by
    rw [String.data_append, String.data_append, List.append_assoc, nl_data]
    rfl
  rw [h, splitCh_append_sep, List.map_append]

theorem splitNL_of_noNL (s : String) (h : noNL s) : splitNL s = [s] := by
  unfold splitNL
  rw [splitCh_of_not_mem '\n' s.data h]
  simp [mk_data]

theorem noNL_of_mem_splitNL (s : String) : ∀ l ∈ splitNL s, noNL l := by
  intro l hl
  unfold splitNL at hl
  rcases List.mem_map.mp hl with ⟨cs, hcs, rfl⟩
  exact not_mem_of_mem_splitCh '\n' s.data cs hcs

theorem noNL_append (a b : String) (ha : noNL a) (hb : noNL b) : noNL (a ++ b) := by
  unfold noNL at *
  rw [String.data_append]
  simp only [List.mem_append, not_or]
  exact ⟨ha, hb⟩

theorem noNL_goJoin (sep : String) (L : List String) (hsep : noNL sep)
    (hL : ∀ l ∈ L, noNL l) : noNL (goJoin sep L) := by
  induction L with
  | nil => exact (by decide : noNL "")
  | cons a rest ih =>
    cases rest with
    | nil => exact hL a (List.mem_cons_self _ _)
    | cons b rest2 =>
      show noNL (a ++ sep ++ goJoin sep (b :: rest2))
      exact noNL_append _ _ (noNL_append _ _ (hL a (List.mem_cons_self _ _)) hsep)
        (ih (fun l hl => hL l (List.mem_cons_of_mem a hl)))

theorem goJoin_splitNL (s : String) : goJoin "\n" (splitNL s) = s := by
  apply String.ext
  rw [goJoin_nl_data]
  unfold splitNL
  rw [List.map_map]
  have h : (String.data ∘ fun cs => String.mk cs) = id := rfl
  rw [h, List.map_id]
  exact joinCh_splitCh '\n' s.data

theorem splitNL_flatMap_goJoin (L : List String) (hne : L ≠ []) :
    splitNL (goJoin "\n" L) = L.flatMap splitNL := by
  induction L with
  | nil => exact absurd rfl hne
  | cons a rest ih =>
    cases rest with
    | nil =>
      rw [show goJoin "\n" [a] = a from rfl]
      simp
    | cons b rest2 =>
      show splitNL (a ++ "\n" ++ goJoin "\n" (b :: rest2)) = _
      rw [splitNL_append_nl, ih (by simp)]
      simp

theorem splitNL_empty : splitNL "" = [""] := rfl

theorem lines_jswls (cs : List String)
    (hne : filterEmpty (cs.flatMap splitNL) ≠ []) :
    splitNL (joinStringsWithoutLineSpace cs) = filterEmpty (cs.flatMap splitNL) := by
  unfold joinStringsWithoutLineSpace
  apply splitNL_goJoin _ _ hne
  intro l hl
  unfold filterEmpty at hl
  have hmem := List.mem_of_mem_filter hl
  rcases List.mem_flatMap.mp hmem with ⟨c, _, hc⟩
  exact noNL_of_mem_splitNL c l hc

theorem mem_lines_jswls (cs : List String) (l : String)
    (hl : l ∈ splitNL (joinStringsWithoutLineSpace cs)) :
    l = "" ∨ (l ∈ cs.flatMap splitNL ∧ l ≠ "") := by
  by_cases hne : filterEmpty (cs.flatMap splitNL) = []
  · left
    unfold joinStringsWithoutLineSpace at hl
    rw [hne] at hl
    simpa [goJoin, splitNL_empty] using hl
  · right
    rw [lines_jswls cs hne] at hl
    unfold filterEmpty at hl
    have := List.of_mem_filter hl
    refine ⟨List.mem_of_mem_filter hl, ?_⟩
    simpa using this

/-! ## Character-position helpers -/

theorem str_head (a b : String) (h : a.data ≠ []) :
    (a ++ b).data.head? = a.data.head? := by
  rw [String.data_append]
  exact List.head?_append_of_ne_nil a.data h

theorem str_last (a b : String) (h : b.data ≠ []) :
    (a ++ b).data.getLast? = b.data.getLast? := by
  rw [String.data_append]
  exact List.getLast?_append_of_ne_nil a.data h

theorem str_head_of (a b : String) (c : Char) (h : a.data.head? = some c) :
    (a ++ b).data.head? = some c := by
  rw [str_head a b (by intro hnil; rw [hnil] at h; cases h)]
  exact h

theorem str_last_of (a b : String) (c : Char) (h : b.data.getLast? = some c) :
    (a ++ b).data.getLast? = some c := by
  rw [str_last a b (by intro hnil; rw [hnil] at h; cases h)]
  exact h

theorem str_ne_of_head (s t : String) (h : s.data.head? ≠ t.data.head?) : s ≠ t :=
  fun he => h (by rw [he])

theorem str_ne_of_last (s t : String) (h : s.data.getLast? ≠ t.data.getLast?) : s ≠ t :=
  fun he => h (by rw [he])

theorem noNL_goPathJoin (a b : String) (ha : noNL a) (hb : noNL b) :
    noNL (goPathJoin a b) := by
  unfold goPathJoin
  split
  · exact hb
  · split
    · exact ha
    · exact noNL_append _ _ (noNL_append _ _ ha (by decide)) hb

theorem noNL_of_contains_false (s : String) (h : s.data.contains '\n' = false) :
    noNL s := by
  intro hmem
  have helem := List.elem_iff.mpr hmem
  rw [show s.data.contains '\n' = s.data.elem '\n' from rfl, helem] at h
  cases h

/-! ## The shape of the system-package install instruction -/

/-- A line is apt-install-shaped when it is exactly the instruction
`aptInstalls` would emit for some package list text. -/
def aptShaped (l : String) : Prop :=
  ∃ pk : String, l = aptHeadStr ++ pk ++ aptEndStr

/-- A decidable necessary condition of `aptShaped`: the line starts with
the fixed instruction head and ends in the `*` of the cleanup suffix. -/
def aptNec (l : String) : Prop :=
  aptHeadStr.data <+: l.data ∧ l.data.getLast? = some '*'

instance (l : String) : Decidable (aptNec l) := by
  unfold aptNec
  infer_instance

theorem aptShaped_nec (l : String) (h : aptShaped l) : aptNec l := by
  rcases h with ⟨pk, rfl⟩
  constructor
  · rw [String.data_append, String.data_append, List.append_assoc]
    exact List.prefix_append _ _
  · exact str_last_of _ _ _ (by decide)

theorem not_aptShaped_of_not_nec (l : String) (h : ¬ aptNec l) : ¬ aptShaped l :=
  fun hs => h (aptShaped_nec l hs)

theorem not_aptNec_of_head (l : String) (c : Char) (hc : c ≠ 'R')
    (h : l.data.head? = some c) : ¬ aptNec l := by
  rintro ⟨⟨t, ht⟩, _⟩
  rw [← ht, List.head?_append_of_ne_nil _ (by decide)] at h
  rw [show aptHeadStr.data.head? = some 'R' from by decide] at h
  exact hc (Option.some.injEq .. ▸ h.symm ▸ rfl)

theorem aptNec_run_body (c : String) (h : aptNec ("RUN " ++ c)) :
    aptTailStr.data <+: c.data := by
  rcases h with ⟨hpre, _⟩
  have hsplit : aptHeadStr.data = "RUN ".data ++ aptTailStr.data :=
    String.data_append "RUN " aptTailStr
  rw [hsplit, String.data_append] at hpre
  exact (List.prefix_append_right_inj _).mp hpre

theorem not_tail_pre_secret (r : String) :
    ¬ (aptTailStr.data <+: ("--mount=type=secret,id=" ++ r).data) := by
  intro hpre
  have h1 : aptTailStr.data = "--mount=type=".data ++
      'c' :: "ache,target=/var/cache/apt,sharing=locked apt-get update -qq && apt-get install -qqy ".data := by
    decide
  have h2 : ("--mount=type=secret,id=" ++ r).data
      = "--mount=type=".data ++ 's' :: ("ecret,id=".data ++ r.data) := by
    rw [String.data_append]
    rw [show "--mount=type=secret,id=".data = "--mount=type=".data ++ 's' :: "ecret,id=".data from by decide]
    rw [List.append_assoc]
    rfl
  rw [h1, h2] at hpre
  have hp2 := (List.prefix_append_right_inj _).mp hpre
  rw [List.cons_prefix_cons] at hp2
  exact absurd hp2.1 (by decide)

/-! ## Line classification for the assembled plan -/

/-- Every configuration-independent line that `generateInitialSteps` can
emit (the tab-indented continuation lines are classified by their leading
tab instead). -/
def fixedPlanLines : List String :=
  ["#syntax=docker/dockerfile:1.4",
   "ENV DEBIAN_FRONTEND=noninteractive",
   "ENV PYTHONUNBUFFERED=1",
   "ENV LD_LIBRARY_PATH=$LD_LIBRARY_PATH:/usr/lib/x86_64-linux-gnu:/usr/local/nvidia/lib64:/usr/local/nvidia/bin",
   "ENV NVIDIA_DRIVER_CAPABILITIES=all",
   "RUN --mount=type=cache,target=/var/cache/apt,sharing=locked set -eux; \\",
   "apt-get update -qq && \\",
   "apt-get install -qqy --no-install-recommends curl; \\",
   "rm -rf /var/lib/apt/lists/*; \\",
   "TINI_VERSION=v0.19.0; \\",
   "TINI_ARCH=\"$(dpkg --print-architecture)\"; \\",
   "curl -sSL -o /sbin/tini \"https://github.com/krallin/tini/releases/download/${TINI_VERSION}/tini-${TINI_ARCH}\"; \\",
   "chmod +x /sbin/tini",
   "ENTRYPOINT [\"/sbin/tini\", \"--\"]",
   "ENV PATH=\"/root/.pyenv/shims:/root/.pyenv/bin:$PATH\"",
   "RUN --mount=type=cache,target=/var/cache/apt,sharing=locked apt-get update -qq && apt-get install -qqy --no-install-recommends \\",
   "RUN curl -s -S -L https://raw.githubusercontent.com/pyenv/pyenv-installer/master/bin/pyenv-installer | bash && \\",
   "RUN --mount=type=bind,from=deps,source=/dep,target=/dep \\",
   "    cp -rf /dep/* $(pyenv prefix)/lib/python*/site-packages; \\",
   "    cp -rf /dep/bin/* $(pyenv prefix)/bin; \\",
   "    pyenv rehash",
   "RUN --mount=type=cache,target=/root/.cache/pip pip install -t /dep /tmp/cog-0.0.1.dev-py3-none-any.whl",
   "RUN pip install -r /tmp/requirements.txt",
   "RUN --mount=type=cache,target=/root/.cache/pip pip install -t /dep -r /tmp/requirements.txt"]

/-- The run-instruction bodies that `generateInitialSteps` can emit after
`"RUN "`: the experimental build-stage setup command, or a rendered run
item (without or with mount tokens). -/
def RunBodySource (g : Generator) (c : String) : Prop :=
  c = g.buildStageDeps
  ∨ ∃ item ∈ g.allRunItems,
      (item.mounts = [] ∧ c = goTrimSpace item.command)
      ∨ (item.mounts ≠ [] ∧
          c = goJoin " " (secretMountTokens item.mounts) ++ " " ++ goTrimSpace item.command)

/-- Classification of every nonempty line that `generateInitialSteps` can
emit. -/
def LineOK (g : Generator) (l : String) : Prop :=
  l ∈ fixedPlanLines
  ∨ (∃ rest, l = "FROM " ++ rest)
  ∨ (∃ c, l = "RUN " ++ c ∧ RunBodySource g c)
  ∨ (∃ a fn, (fn = "cog-0.0.1.dev-py3-none-any.whl" ∨ fn = "requirements.txt")
        ∧ l = "COPY " ++ a ++ " /tmp/" ++ fn)
  ∨ (∃ v, l = "COPY --from=deps --link /dep /usr/local/lib/python" ++ v ++ "/site-packages")
  ∨ l.data.head? = some '\t'
  ∨ (g.config.build.systemPackages ≠ [] ∧ aptShaped l)

/-- All nonempty lines of a fragment are classified. -/
def ChunkOK (g : Generator) (s : String) : Prop :=
  ∀ l ∈ splitNL s, l ≠ "" → LineOK g l

/-- An `Except` value whose success payload has no embedded newline. -/
def okNoNL : Except String String → Prop
  | .ok s => noNL s
  | .error _ => True

instance (e : Except String String) : Decidable (okNoNL e) :=
  match e with
  | .ok s => (inferInstance : Decidable (noNL s))
  | .error _ => isTrue trivial

/-- Sanity conditions on the configuration strings that end up inside
generated lines: none of them embeds a newline (a configuration whose
version strings, package names, mount ids or image tags contain line
breaks would produce a malformed build file in the Go tool as well). -/
def CleanGen (g : Generator) : Prop :=
  noNL g.config.build.pythonVersion ∧
  noNL g.relativeTmpDir ∧
  noNL g.buildStageDeps ∧
  (∀ p ∈ g.config.build.systemPackages, noNL p) ∧
  okNoNL g.BaseImage ∧
  (∀ item ∈ g.allRunItems, ∀ m ∈ item.mounts, noNL m.id ∧ noNL m.target)

/-- Sanity condition ruling out configured commands that deliberately
forge the system-package install instruction: no run command (after
trimming) and no experimental build-stage setup command starts with the
fixed apt-install mount/update text. -/
def RunSafety (g : Generator) : Prop :=
  ¬ (aptTailStr.data <+: g.buildStageDeps.data) ∧
  ∀ item ∈ g.allRunItems, ¬ (aptTailStr.data <+: (goTrimSpace item.command).data)

instance (g : Generator) : Decidable (CleanGen g) := by
  unfold CleanGen
  infer_instance

instance (g : Generator) : Decidable (RunSafety g) := by
  unfold RunSafety
  infer_instance

/-! ## Per-fragment line lemmas -/

theorem chunkOK_of_fixed (g : Generator) (s : String)
    (h : ∀ l ∈ splitNL s, l = "" ∨ l ∈ fixedPlanLines) : ChunkOK g s := by
  intro l hl hne
  rcases h l hl with h1 | h1
  · exact absurd h1 hne
  · exact Or.inl h1

theorem chunkOK_from (g : Generator) (b : String) (hb : noNL b) :
    ChunkOK g ("FROM " ++ b) := by
  intro l hl _
  rw [splitNL_of_noNL _ (noNL_append _ _ (by decide) hb)] at hl
  have hl2 := List.mem_singleton.mp hl
  subst hl2
  exact Or.inr (Or.inl ⟨b, rfl⟩)

theorem chunkOK_empty (g : Generator) : ChunkOK g "" := by
  intro l hl hne
  rw [splitNL_empty] at hl
  exact absurd (List.mem_singleton.mp hl) hne

theorem chunkOK_aptInstalls (g : Generator) (s : String)
    (hpk : ∀ p ∈ g.config.build.systemPackages, noNL p)
    (h : g.aptInstalls = .ok s) : ChunkOK g s := by
  by_cases hlen : g.config.build.systemPackages.length = 0
  · simp only [Generator.aptInstalls, if_pos hlen, Except.ok.injEq] at h
    subst h
    exact chunkOK_empty g
  · simp only [Generator.aptInstalls, if_neg hlen, Except.ok.injEq] at h
    subst h
    have hne : g.config.build.systemPackages ≠ [] := by
      intro hnil
      exact hlen (by rw [hnil]; rfl)
    set pkgs := (if g.useCogBaseImage = true then
        g.config.build.systemPackages.filter
          (fun pkg => !(g.baseImageSystemPackages.contains pkg))
      else g.config.build.systemPackages) with hpkgs
    have hsub : ∀ p ∈ pkgs, noNL p := by
      intro p hp
      rw [hpkgs] at hp
      split at hp
      · exact hpk p (List.mem_of_mem_filter hp)
      · exact hpk p hp
    have hline : noNL (aptHeadStr ++ goJoin " " pkgs ++ aptEndStr) :=
      noNL_append _ _
        (noNL_append _ _ (by decide) (noNL_goJoin " " pkgs (by decide) hsub))
        (by decide)
    intro l hl _
    rw [splitNL_of_noNL _ hline] at hl
    have hl2 := List.mem_singleton.mp hl
    subst hl2
    exact Or.inr (Or.inr (Or.inr (Or.inr (Or.inr (Or.inr ⟨hne, goJoin " " pkgs, rfl⟩)))))

theorem secretMountTokens_noNL (mounts : List RunMount)
    (hm : ∀ m ∈ mounts, noNL m.id ∧ noNL m.target) :
    ∀ t ∈ secretMountTokens mounts, noNL t := by
  intro t ht
  rcases List.mem_filterMap.mp ht with ⟨m, hmem, hsome⟩
  split at hsome
  · injection hsome with hsome
    subst hsome
    exact noNL_append _ _
      (noNL_append _ _ (noNL_append _ _ (by decide) (hm m hmem).1) (by decide))
      (hm m hmem).2
  · cases hsome

theorem renderRunItem_shape (run : RunItem) :
    (run.mounts = [] ∧ renderRunItem run = "RUN " ++ goTrimSpace run.command) ∨
    (run.mounts ≠ [] ∧ renderRunItem run =
      "RUN " ++ goJoin " " (secretMountTokens run.mounts) ++ " " ++ goTrimSpace run.command) := by
  unfold renderRunItem
  by_cases hm : run.mounts.length > 0
  · right
    refine ⟨?_, by rw [if_pos hm]⟩
    intro hnil
    rw [hnil] at hm
    exact absurd hm (by decide)
  · left
    refine ⟨?_, by rw [if_neg hm]⟩
    exact List.length_eq_zero.mp (Nat.eq_zero_of_not_pos hm)

theorem renderRunItem_noNL (run : RunItem)
    (hc : (goTrimSpace run.command).data.contains '\n' = false)
    (hm : ∀ m ∈ run.mounts, noNL m.id ∧ noNL m.target) :
    noNL (renderRunItem run) := by
  have hcmd : noNL (goTrimSpace run.command) := noNL_of_contains_false _ hc
  rcases renderRunItem_shape run with ⟨_, hr⟩ | ⟨_, hr⟩
  · rw [hr]
    exact noNL_append _ _ (by decide) hcmd
  · rw [hr]
    exact noNL_append _ _
      (noNL_append _ _
        (noNL_append _ _ (by decide)
          (noNL_goJoin " " _ (by decide) (secretMountTokens_noNL run.mounts hm)))
        (by decide))
      hcmd

theorem runCommandLines_mem (items : List RunItem) (lines : List String)
    (h : runCommandLines items = .ok lines) :
    ∀ line ∈ lines, ∃ item ∈ items,
      (goTrimSpace item.command).data.contains '\n' = false ∧
      line = renderRunItem item := by
  induction items generalizing lines with
  | nil =>
    unfold runCommandLines at h
    injection h with h
    subst h
    intro line hline
    cases hline
  | cons run rest ih =>
    unfold runCommandLines at h
    by_cases hc : (goTrimSpace run.command).data.contains '\n' = true
    · rw [if_pos hc] at h
      cases h
    · rw [if_neg hc] at h
      cases hrc : runCommandLines rest with
      | error e => rw [hrc] at h; cases h
      | ok rlines =>
        rw [hrc] at h
        injection h with h
        subst h
        intro line hline
        rcases List.mem_cons.mp hline with h1 | h1
        · exact ⟨run, List.mem_cons_self _ _, Bool.eq_false_iff.mpr hc, h1⟩
        · rcases ih rlines hrc line h1 with ⟨item, hi, hcc, hsh⟩
          exact ⟨item, List.mem_cons_of_mem _ hi, hcc, hsh⟩

theorem chunkOK_runCommands (g : Generator) (s : String)
    (hm : ∀ item ∈ g.allRunItems, ∀ m ∈ item.mounts, noNL m.id ∧ noNL m.target)
    (h : g.runCommands = .ok s) : ChunkOK g s := by
  unfold Generator.runCommands at h
  cases hrc : runCommandLines g.allRunItems with
  | error e => rw [hrc] at h; cases h
  | ok lines =>
    rw [hrc] at h
    injection h with h
    subst h
    cases hl : lines with
    | nil => exact chunkOK_empty g
    | cons a rest =>
      subst hl
      intro l hmem _
      rw [splitNL_flatMap_goJoin _ (by intro hx; cases hx)] at hmem
      rcases List.mem_flatMap.mp hmem with ⟨line, hline, hin⟩
      rcases runCommandLines_mem _ _ hrc line hline with ⟨item, hitem, hcc, rfl⟩
      rw [splitNL_of_noNL _ (renderRunItem_noNL item hcc (hm item hitem))] at hin
      have hin2 := List.mem_singleton.mp hin
      subst hin2
      rcases renderRunItem_shape item with ⟨hmt, hr⟩ | ⟨hmt, hr⟩
      · rw [hr]
        exact Or.inr (Or.inr (Or.inl
          ⟨goTrimSpace item.command, rfl, Or.inr ⟨item, hitem, Or.inl ⟨hmt, rfl⟩⟩⟩))
      · rw [hr]
        refine Or.inr (Or.inr (Or.inl
          ⟨goJoin " " (secretMountTokens item.mounts) ++ " " ++ goTrimSpace item.command,
           ?_, Or.inr ⟨item, hitem, Or.inr ⟨hmt, rfl⟩⟩⟩))
        simp [String.append_assoc]

theorem chunkOK_cudaLines (g : Generator) (s : String)
    (hpy : noNL g.config.build.pythonVersion)
    (h : g.installPythonCUDA = .ok s) : ChunkOK g s := by
  unfold Generator.installPythonCUDA at h
  injection h with h
  subst h
  have hclass : ∀ x ∈ cudaLines g.config.build.pythonVersion,
      noNL x ∧ (x ∈ fixedPlanLines ∨ x.data.head? = some '\t') := by
    intro x hx
    simp only [cudaLines, List.mem_cons, List.not_mem_nil, or_false] at hx
    rcases hx with rfl|rfl|rfl|rfl|rfl|rfl|rfl|rfl|rfl|rfl|rfl|rfl|rfl|rfl|rfl|rfl|rfl|rfl|rfl|rfl|rfl|rfl|rfl|rfl|rfl|rfl
    all_goals first
      | exact ⟨by decide, Or.inl (by decide)⟩
      | exact ⟨by decide, Or.inr (by decide)⟩
      | exact ⟨noNL_append _ _ (noNL_append _ _ (by decide) hpy) (by decide),
          Or.inr (str_head_of _ _ _ (str_head_of _ _ _ (by decide)))⟩
  intro l hl _
  rw [splitNL_flatMap_goJoin _ (by simp [cudaLines])] at hl
  rcases List.mem_flatMap.mp hl with ⟨line, hline, hin⟩
  rcases hclass line hline with ⟨hnl, hcl⟩
  rw [splitNL_of_noNL _ hnl] at hin
  have hin2 := List.mem_singleton.mp hin
  subst hin2
  rcases hcl with h1 | h1
  · exact Or.inl h1
  · exact Or.inr (Or.inr (Or.inr (Or.inr (Or.inr (Or.inl h1)))))

theorem chunkOK_installPython (g : Generator) (s : String)
    (hpy : noNL g.config.build.pythonVersion)
    (h : g.installPython = .ok s) : ChunkOK g s := by
  unfold Generator.installPython at h
  split at h
  · exact chunkOK_cudaLines g s hpy h
  · injection h with h
    subst h
    exact chunkOK_empty g

theorem chunkOK_copyPip (g : Generator)
    (hpy : noNL g.config.build.pythonVersion) :
    ChunkOK g g.copyPipPackagesFromInstallStage := by
  intro l hl hne
  unfold Generator.copyPipPackagesFromInstallStage at hl
  split at hl
  · have hfix : ∀ x ∈ splitNL "\nRUN --mount=type=bind,from=deps,source=/dep,target=/dep \\\n    cp -rf /dep/* $(pyenv prefix)/lib/python*/site-packages; \\\n    cp -rf /dep/bin/* $(pyenv prefix)/bin; \\\n    pyenv rehash\n",
        x = "" ∨ x ∈ fixedPlanLines := by decide
    rcases hfix l hl with h1 | h1
    · exact absurd h1 hne
    · exact Or.inl h1
  · have hnl : noNL ("COPY --from=deps --link /dep /usr/local/lib/python" ++
        g.config.build.pythonVersion ++ "/site-packages") :=
      noNL_append _ _ (noNL_append _ _ (by decide) hpy) (by decide)
    rw [splitNL_of_noNL _ hnl] at hl
    have hl2 := List.mem_singleton.mp hl
    subst hl2
    exact Or.inr (Or.inr (Or.inr (Or.inr (Or.inl ⟨g.config.build.pythonVersion, rfl⟩))))

theorem chunkOK_pipInstalls (g : Generator) (s : String)
    (hrel : noNL g.relativeTmpDir) (h : g.pipInstalls = .ok s) : ChunkOK g s := by
  unfold Generator.pipInstalls at h
  split at h
  · cases h
  · rename_i reqs hreq
    split at h
    · injection h with h
      subst h
      exact chunkOK_empty g
    · simp only [Generator.writeTemp, List.headD] at h
      injection h with h
      subst h
      intro l hl hne
      rw [splitNL_flatMap_goJoin _ (by simp)] at hl
      rcases List.mem_flatMap.mp hl with ⟨line, hline, hin⟩
      simp only [List.mem_cons, List.not_mem_nil, or_false] at hline
      rcases hline with rfl | rfl
      · have hnl : noNL ("COPY " ++ goPathJoin g.relativeTmpDir "requirements.txt" ++
            " /tmp/" ++ "requirements.txt") :=
          noNL_append _ _
            (noNL_append _ _
              (noNL_append _ _ (by decide) (noNL_goPathJoin _ _ hrel (by decide)))
              (by decide))
            (by decide)
        rw [splitNL_of_noNL _ hnl] at hin
        have hin2 := List.mem_singleton.mp hin
        subst hin2
        exact Or.inr (Or.inr (Or.inr (Or.inl
          ⟨goPathJoin g.relativeTmpDir "requirements.txt", "requirements.txt",
           Or.inr rfl, rfl⟩)))
      · have heq : ("RUN pip install -r " ++ ("/tmp/" ++ "requirements.txt"))
            = "RUN pip install -r /tmp/requirements.txt" := by decide
        rw [heq] at hin
        rw [splitNL_of_noNL _ (by decide)] at hin
        have hin2 := List.mem_singleton.mp hin
        subst hin2
        exact Or.inl (by decide)

theorem chunkOK_pipInstallStage (g : Generator) (s : String)
    (hpy : noNL g.config.build.pythonVersion)
    (hrel : noNL g.relativeTmpDir)
    (hbsd : noNL g.buildStageDeps)
    (h : g.pipInstallStage = .ok s) : ChunkOK g s := by
  have hfrom : ChunkOK g ("FROM " ++ ("python:" ++ g.config.build.pythonVersion) ++ " as deps") := by
    intro l hl _
    have hnl : noNL ("FROM " ++ ("python:" ++ g.config.build.pythonVersion) ++ " as deps") :=
      noNL_append _ _ (noNL_append _ _ (by decide) (noNL_append _ _ (by decide) hpy)) (by decide)
    rw [splitNL_of_noNL _ hnl] at hl
    have hl2 := List.mem_singleton.mp hl
    subst hl2
    refine Or.inr (Or.inl ⟨"python:" ++ g.config.build.pythonVersion ++ " as deps", ?_⟩)
    simp [String.append_assoc]
  have hic : ∀ l ∈ splitNL (goJoin "\n"
      (["COPY " ++ goPathJoin g.relativeTmpDir "cog-0.0.1.dev-py3-none-any.whl" ++
          " /tmp/" ++ "cog-0.0.1.dev-py3-none-any.whl"] ++
        ["RUN --mount=type=cache,target=/root/.cache/pip pip install -t /dep " ++
          ("/tmp/" ++ "cog-0.0.1.dev-py3-none-any.whl")])), l ≠ "" → LineOK g l := by
    intro l hl _
    rw [splitNL_flatMap_goJoin _ (by simp)] at hl
    rcases List.mem_flatMap.mp hl with ⟨line, hline, hin⟩
    simp only [List.cons_append, List.nil_append, List.mem_cons, List.not_mem_nil, or_false] at hline
    rcases hline with rfl | rfl
    · have hnl : noNL ("COPY " ++ goPathJoin g.relativeTmpDir "cog-0.0.1.dev-py3-none-any.whl" ++
          " /tmp/" ++ "cog-0.0.1.dev-py3-none-any.whl") :=
        noNL_append _ _
          (noNL_append _ _
            (noNL_append _ _ (by decide) (noNL_goPathJoin _ _ hrel (by decide)))
            (by decide))
          (by decide)
      rw [splitNL_of_noNL _ hnl] at hin
      have hin2 := List.mem_singleton.mp hin
      subst hin2
      exact Or.inr (Or.inr (Or.inr (Or.inl
        ⟨goPathJoin g.relativeTmpDir "cog-0.0.1.dev-py3-none-any.whl",
         "cog-0.0.1.dev-py3-none-any.whl", Or.inl rfl, rfl⟩)))
    · have heq : ("RUN --mount=type=cache,target=/root/.cache/pip pip install -t /dep " ++
          ("/tmp/" ++ "cog-0.0.1.dev-py3-none-any.whl"))
          = "RUN --mount=type=cache,target=/root/.cache/pip pip install -t /dep /tmp/cog-0.0.1.dev-py3-none-any.whl" := by
        decide
      rw [heq] at hin
      rw [splitNL_of_noNL _ (by decide)] at hin
      have hin2 := List.mem_singleton.mp hin
      subst hin2
      exact Or.inl (by decide)
  unfold Generator.pipInstallStage at h
  simp only [Generator.installCog, Generator.writeTemp] at h
  split at h
  · cases h
  · rename_i reqs hreq
    split at h
    · injection h with h
      subst h
      intro l hl hne
      rw [splitNL_flatMap_goJoin _ (by simp)] at hl
      rcases List.mem_flatMap.mp hl with ⟨line, hline, hin⟩
      simp only [List.mem_cons, List.not_mem_nil, or_false] at hline
      rcases hline with rfl | rfl
      · exact hfrom l hin hne
      · exact hic l hin hne
    · simp only [List.headD] at h
      injection h with h
      subst h
      intro l hl hne
      rw [splitNL_flatMap_goJoin _ (by simp)] at hl
      rcases List.mem_flatMap.mp hl with ⟨line, hline, hin⟩
      simp only [List.mem_cons, List.not_mem_nil, or_false] at hline
      rcases hline with rfl | rfl | rfl | rfl
      · split at hin
        · rw [splitNL_flatMap_goJoin _ (by simp)] at hin
          rcases List.mem_flatMap.mp hin with ⟨line2, hline2, hin2⟩
          simp only [List.mem_cons, List.not_mem_nil, or_false] at hline2
          rcases hline2 with rfl | rfl
          · exact hfrom l hin2 hne
          · have hnl : noNL ("RUN " ++ g.buildStageDeps) :=
              noNL_append _ _ (by decide) hbsd
            rw [splitNL_of_noNL _ hnl] at hin2
            have hin3 := List.mem_singleton.mp hin2
            subst hin3
            exact Or.inr (Or.inr (Or.inl ⟨g.buildStageDeps, rfl, Or.inl rfl⟩))
        · exact hfrom l hin hne
      · exact hic l hin hne
      · have hnl : noNL ("COPY " ++ goPathJoin g.relativeTmpDir "requirements.txt" ++
            " /tmp/" ++ "requirements.txt") :=
          noNL_append _ _
            (noNL_append _ _
              (noNL_append _ _ (by decide) (noNL_goPathJoin _ _ hrel (by decide)))
              (by decide))
            (by decide)
        rw [splitNL_of_noNL _ hnl] at hin
        have hin2 := List.mem_singleton.mp hin
        subst hin2
        exact Or.inr (Or.inr (Or.inr (Or.inl
          ⟨goPathJoin g.relativeTmpDir "requirements.txt", "requirements.txt",
           Or.inr rfl, rfl⟩)))
      · have heq : ("RUN --mount=type=cache,target=/root/.cache/pip pip install -t /dep -r " ++
            ("/tmp/" ++ "requirements.txt"))
            = "RUN --mount=type=cache,target=/root/.cache/pip pip install -t /dep -r /tmp/requirements.txt" := by
          decide
        rw [heq] at hin
        rw [splitNL_of_noNL _ (by decide)] at hin
        have hin2 := List.mem_singleton.mp hin
        subst hin2
        exact Or.inl (by decide)

/-! ## The initial-steps master lemmas -/

theorem initialSteps_inv (g : Generator) (s : String)
    (h : g.generateInitialSteps = .ok s) :
    ∃ baseImage installPython aptInstalls runCommands,
      g.BaseImage = .ok baseImage ∧
      g.installPython = .ok installPython ∧
      g.aptInstalls = .ok aptInstalls ∧
      g.runCommands = .ok runCommands ∧
      ((g.useCogBaseImage = true ∧ ∃ pipInstalls, g.pipInstalls = .ok pipInstalls ∧
          s = joinStringsWithoutLineSpace
            ["#syntax=docker/dockerfile:1.4", "FROM " ++ baseImage, aptInstalls,
             pipInstalls, runCommands]) ∨
       (g.useCogBaseImage = false ∧ ∃ pis, g.pipInstallStage = .ok pis ∧
          s = joinStringsWithoutLineSpace
            ["#syntax=docker/dockerfile:1.4", pis, "FROM " ++ baseImage,
             g.preamble, g.installTini, installPython, aptInstalls,
             g.copyPipPackagesFromInstallStage, runCommands])) := by
  unfold Generator.generateInitialSteps at h
  split at h
  · cases h
  · rename_i baseImage hbi
    split at h
    · cases h
    · rename_i installPython hip
      split at h
      · cases h
      · rename_i aptInstalls hai
        split at h
        · cases h
        · rename_i runCommands hrc
          split at h
          · rename_i hcog
            split at h
            · cases h
            · rename_i pipInstalls hpi
              injection h with h
              exact ⟨baseImage, installPython, aptInstalls, runCommands, hbi, hip, hai, hrc,
                Or.inl ⟨hcog, pipInstalls, hpi, h.symm⟩⟩
          · rename_i hcog
            split at h
            · cases h
            · rename_i pis hpis
              injection h with h
              exact ⟨baseImage, installPython, aptInstalls, runCommands, hbi, hip, hai, hrc,
                Or.inr ⟨by simpa using hcog, pis, hpis, h.symm⟩⟩

theorem initialSteps_lineOK (g : Generator) (s : String)
    (hclean : CleanGen g) (h : g.generateInitialSteps = .ok s) :
    ∀ l ∈ splitNL s, l ≠ "" → LineOK g l := by
  obtain ⟨hpy, hrel, hbsd, hpk, hbni, hmounts⟩ := hclean
  rcases initialSteps_inv g s h with
    ⟨baseImage, installPython, aptInstalls, runCommands, hbi, hip, hai, hrc, hbranch⟩
  have hbase : noNL baseImage := by
    have hx := hbni
    rw [hbi] at hx
    exact hx
  rcases hbranch with ⟨hcog, pipInstalls, hpi, rfl⟩ | ⟨hcog, pis, hpis, rfl⟩
  · intro l hl hne
    rcases mem_lines_jswls _ _ hl with rfl | ⟨hmem, _⟩
    · exact absurd rfl hne
    · rcases List.mem_flatMap.mp hmem with ⟨chunk, hchunk, hin⟩
      simp only [List.mem_cons, List.not_mem_nil, or_false] at hchunk
      rcases hchunk with rfl | rfl | rfl | rfl | rfl
      · exact chunkOK_of_fixed g _ (by decide) l hin hne
      · exact chunkOK_from g baseImage hbase l hin hne
      · exact chunkOK_aptInstalls g _ hpk hai l hin hne
      · exact chunkOK_pipInstalls g _ hrel hpi l hin hne
      · exact chunkOK_runCommands g _ hmounts hrc l hin hne
  · intro l hl hne
    rcases mem_lines_jswls _ _ hl with rfl | ⟨hmem, _⟩
    · exact absurd rfl hne
    · rcases List.mem_flatMap.mp hmem with ⟨chunk, hchunk, hin⟩
      simp only [List.mem_cons, List.not_mem_nil, or_false] at hchunk
      rcases hchunk with rfl | rfl | rfl | rfl | rfl | rfl | rfl | rfl | rfl
      · exact chunkOK_of_fixed g _ (by decide) l hin hne
      · exact chunkOK_pipInstallStage g _ hpy hrel hbsd hpis l hin hne
      · exact chunkOK_from g baseImage hbase l hin hne
      · rw [show g.preamble = preambleStr from rfl] at hin
        exact chunkOK_of_fixed g preambleStr (by decide) l hin hne
      · rw [show g.installTini = installTiniStr from rfl] at hin
        exact chunkOK_of_fixed g installTiniStr (by decide) l hin hne
      · exact chunkOK_installPython g _ hpy hip l hin hne
      · exact chunkOK_aptInstalls g _ hpk hai l hin hne
      · exact chunkOK_copyPip g hpy l hin hne
      · exact chunkOK_runCommands g _ hmounts hrc l hin hne

/-! ## What a classified line cannot be -/

theorem lineOK_ne_copy_src (g : Generator) (l : String) (hok : LineOK g l) :
    l ≠ "COPY . /src" := by
  rcases hok with h | ⟨rest, rfl⟩ | ⟨c, rfl, _⟩ | ⟨a, fn, hfn, rfl⟩ | ⟨v, rfl⟩ | h | ⟨_, hps⟩
  · exact (by decide : ∀ x ∈ fixedPlanLines, x ≠ "COPY . /src") l h
  · apply str_ne_of_head
    rw [str_head_of "FROM " rest 'F' (by decide)]
    decide
  · apply str_ne_of_head
    rw [str_head_of "RUN " c 'R' (by decide)]
    decide
  · apply str_ne_of_last
    rcases hfn with rfl | rfl
    · rw [str_last_of _ _ 'l' (by decide)]
      decide
    · rw [str_last_of _ _ 't' (by decide)]
      decide
  · apply str_ne_of_last
    rw [str_last_of _ _ 's' (by decide)]
    decide
  · apply str_ne_of_head
    rw [h]
    decide
  · rcases hps with ⟨pk, rfl⟩
    apply str_ne_of_head
    rw [str_head_of _ _ 'R' (str_head_of _ _ 'R' (by decide))]
    decide

theorem not_tail_pre_secretD (R : List Char) :
    ¬ (aptTailStr.data <+: "--mount=type=secret,id=".data ++ R) := by
  intro hpre
  simp [List.cons_prefix_cons, List.cons_append, aptTailStr] at hpre

theorem lineOK_not_aptShaped (g : Generator) (l : String)
    (hpkgs : g.config.build.systemPackages = [])
    (hrs : RunSafety g) (hok : LineOK g l) : ¬ aptShaped l := by
  obtain ⟨hrs1, hrs2⟩ := hrs
  apply not_aptShaped_of_not_nec
  rcases hok with h | ⟨rest, rfl⟩ | ⟨c, rfl, hsrc⟩ | ⟨a, fn, hfn, rfl⟩ | ⟨v, rfl⟩ | h | ⟨hne, _⟩
  · exact (by decide : ∀ x ∈ fixedPlanLines, ¬ aptNec x) l h
  · exact not_aptNec_of_head _ 'F' (by decide) (str_head_of _ _ _ (by decide))
  · intro hnec
    have hpre := aptNec_run_body c hnec
    rcases hsrc with rfl | ⟨item, hitem, hsh⟩
    · exact hrs1 hpre
    · rcases hsh with ⟨hm0, rfl⟩ | ⟨hmne, rfl⟩
      · exact hrs2 item hitem hpre
      · cases hsm : secretMountTokens item.mounts with
        | nil =>
          rw [hsm] at hpre
          have hx : ((goJoin " " ([] : List String)) ++ " " ++ goTrimSpace item.command).data
              = ' ' :: (goTrimSpace item.command).data := rfl
          rw [hx] at hpre
          rw [show aptTailStr.data = '-' ::
            "-mount=type=cache,target=/var/cache/apt,sharing=locked apt-get update -qq && apt-get install -qqy ".data
            from by decide, List.cons_prefix_cons] at hpre
          exact absurd hpre.1 (by decide)
        | cons t ts =>
          have htmem : t ∈ secretMountTokens item.mounts := by
            rw [hsm]
            exact List.mem_cons_self _ _
          rcases List.mem_filterMap.mp htmem with ⟨m, _, hsome⟩
          have ht : t = "--mount=type=secret,id=" ++ m.id ++ ",target=" ++ m.target := by
            revert hsome
            split
            · intro hsome
              injection hsome with hsome
              exact hsome.symm
            · intro hsome
              cases hsome
          have hR : ∃ R, (goJoin " " (secretMountTokens item.mounts) ++ " " ++
              goTrimSpace item.command).data = t.data ++ R := by
            rw [hsm]
            cases ts with
            | nil =>
              refine ⟨" ".data ++ (goTrimSpace item.command).data, ?_⟩
              show ((goJoin " " [t]) ++ " " ++ goTrimSpace item.command).data = _
              rw [show goJoin " " [t] = t from rfl]
              simp [String.data_append, List.append_assoc]
            | cons t2 ts2 =>
              refine ⟨" ".data ++ ((goJoin " " (t2 :: ts2)).data ++
                (" ".data ++ (goTrimSpace item.command).data)), ?_⟩
              show ((t ++ " " ++ goJoin " " (t2 :: ts2)) ++ " " ++
                goTrimSpace item.command).data = _
              simp [String.data_append, List.append_assoc]
          rcases hR with ⟨R, hR⟩
          rw [hR, ht] at hpre
          simp only [String.data_append, List.append_assoc] at hpre
          exact not_tail_pre_secretD _ hpre
  · rcases hfn with rfl | rfl
    · exact not_aptNec_of_head _ 'C' (by decide)
        (str_head_of _ _ _ (str_head_of _ _ _ (str_head_of _ _ _ (by decide))))
    · exact not_aptNec_of_head _ 'C' (by decide)
        (str_head_of _ _ _ (str_head_of _ _ _ (str_head_of _ _ _ (by decide))))
  · exact not_aptNec_of_head _ 'C' (by decide)
      (str_head_of _ _ _ (str_head_of _ _ _ (by decide)))
  · exact not_aptNec_of_head _ '\t' (by decide) h
  · exact absurd hpkgs hne

/-! ## The separate-weights assembly -/

theorem mem_injectWeightsBase (im : String) (L : List String) (l : String)
    (hl : l ∈ injectWeightsBase im L) :
    l = "FROM " ++ (im ++ "-weights") ++ " AS " ++ "weights" ∨ l ∈ L := by
  induction L with
  | nil => cases hl
  | cons a rest ih =>
    unfold injectWeightsBase at hl
    split at hl
    · rcases List.mem_cons.mp hl with rfl | h2
      · exact Or.inl rfl
      · exact Or.inr h2
    · rcases List.mem_cons.mp hl with rfl | h2
      · exact Or.inr (List.mem_cons_self _ _)
      · rcases ih h2 with h3 | h3
        · exact Or.inl h3
        · exact Or.inr (List.mem_cons_of_mem _ h3)

theorem splitNL_jswls_facts (cs : List String) (c0 : String) (hc0 : c0 ∈ cs)
    (l0 : String) (hl0 : l0 ∈ splitNL c0) (hne0 : l0 ≠ "") :
    splitNL (joinStringsWithoutLineSpace cs) = filterEmpty (cs.flatMap splitNL) := by
  apply lines_jswls
  intro hnil
  have hmem : l0 ∈ filterEmpty (cs.flatMap splitNL) := by
    unfold filterEmpty
    apply List.mem_filter.mpr
    exact ⟨List.mem_flatMap.mpr ⟨c0, hc0, hl0⟩, by simpa using hne0⟩
  rw [hnil] at hmem
  cases hmem

theorem initialSteps_no_empty (g : Generator) (s : String)
    (h : g.generateInitialSteps = .ok s) :
    ∀ l ∈ splitNL s, l ≠ "" := by
  rcases initialSteps_inv g s h with ⟨b, ip, ai, rc, _, _, _, _, hbr⟩
  rcases hbr with ⟨_, pi, _, rfl⟩ | ⟨_, ps, _, rfl⟩ <;>
  · intro l hl
    rw [splitNL_jswls_facts _ "#syntax=docker/dockerfile:1.4" (List.mem_cons_self _ _)
      "#syntax=docker/dockerfile:1.4" (by decide) (by decide)] at hl
    unfold filterEmpty at hl
    have hf := List.of_mem_filter hl
    simpa using hf

theorem flatMap_splitNL_self (L : List String) (h : ∀ l ∈ L, noNL l) :
    L.flatMap splitNL = L := by
  induction L with
  | nil => rfl
  | cons a rest ih =>
    rw [List.flatMap_cons, splitNL_of_noNL _ (h a (List.mem_cons_self _ _)),
      ih (fun l hl => h l (List.mem_cons_of_mem a hl))]
    rfl

theorem filterEmpty_self (L : List String) (h : ∀ l ∈ L, l ≠ "") :
    filterEmpty L = L := by
  unfold filterEmpty
  rw [List.filter_eq_self.mpr]
  intro a ha
  simpa using h a ha

theorem ne_empty_of_head (s : String) (c : Char) (h : s.data.head? = some c) :
    s ≠ "" := by
  intro he
  rw [he] at h
  cases h

/-- Full line-level characterization of the separate-weights Dockerfile:
its lines are the (weights-stage-spliced) initial steps, then one copy
instruction per discovered path, then the fixed closing block ending in
the copy-everything instruction. -/
theorem separateWeights_lines (g : Generator) (imageName : String)
    (dirs files : List String) (wb df di : String)
    (hw : g.findWeightsResult = .ok (dirs, files))
    (hpaths : ∀ p ∈ dirs ++ files, noNL p)
    (him : noNL imageName)
    (hok : g.GenerateModelBaseWithSeparateWeights imageName = .ok (wb, df, di)) :
    ∃ s, g.generateInitialSteps = .ok s ∧
      splitNL df = injectWeightsBase imageName (splitNL s) ++
        (dirs ++ files).map weightCopyLine ++
        ["WORKDIR /src", "EXPOSE 5000",
         "CMD [\"python\", \"-m\", \"cog.server.http\"]", "COPY . /src"] := by
  unfold Generator.GenerateModelBaseWithSeparateWeights at hok
  unfold Generator.generateForWeights at hok
  rw [hw] at hok
  cases his : g.generateInitialSteps with
  | error e => rw [his] at hok; cases hok
  | ok s =>
    rw [his] at hok
    injection hok with hok
    rw [Prod.mk.injEq, Prod.mk.injEq] at hok
    obtain ⟨h1, h2, h3⟩ := hok
    subst h2
    refine ⟨s, rfl, ?_⟩
    have hinit_ne := initialSteps_no_empty g s his
    have hbase : ∀ l ∈ (injectWeightsBase imageName (splitNL s) ++
        (dirs ++ files).map weightCopyLine ++
        ["WORKDIR /src", "EXPOSE 5000",
         "CMD [\"python\", \"-m\", \"cog.server.http\"]", "COPY . /src"]),
        noNL l ∧ l ≠ "" := by
      intro l hl
      rcases List.mem_append.mp hl with hl2 | hl2
      · rcases List.mem_append.mp hl2 with hl3 | hl3
        · rcases mem_injectWeightsBase _ _ _ hl3 with rfl | hl4
          · refine ⟨?_, ne_empty_of_head _ 'F' (str_head_of _ _ _ (str_head_of _ _ _ (str_head_of _ _ _ (by decide))))⟩
            exact noNL_append _ _ (noNL_append _ _ (noNL_append _ _ (by decide) (noNL_append _ _ him (by decide))) (by decide)) (by decide)
          · exact ⟨noNL_of_mem_splitNL s l hl4, hinit_ne l hl4⟩
        · rcases List.mem_map.mp hl3 with ⟨p, hp, rfl⟩
          have hpn : noNL p := hpaths p hp
          refine ⟨?_, ne_empty_of_head _ 'C'
            (str_head_of _ _ _ (str_head_of _ _ _ (str_head_of _ _ _ (by decide))))⟩
          unfold weightCopyLine
          exact noNL_append _ _
            (noNL_append _ _
              (noNL_append _ _ (by decide) (noNL_goPathJoin _ _ (by decide) hpn))
              (by decide))
            (noNL_goPathJoin _ _ (by decide) hpn)
      · exact ⟨(by decide : ∀ x ∈ ["WORKDIR /src", "EXPOSE 5000",
            "CMD [\"python\", \"-m\", \"cog.server.http\"]", "COPY . /src"], noNL x) l hl2,
          (by decide : ∀ x ∈ ["WORKDIR /src", "EXPOSE 5000",
            "CMD [\"python\", \"-m\", \"cog.server.http\"]", "COPY . /src"], x ≠ "") l hl2⟩
    rw [splitNL_jswls_facts _ "WORKDIR /src"
      (by apply List.mem_append.mpr; right; exact List.mem_cons_self _ _)
      "WORKDIR /src" (by decide) (by decide)]
    rw [flatMap_splitNL_self _ (fun l hl => (hbase l hl).1)]
    exact filterEmpty_self _ (fun l hl => (hbase l hl).2)

/-! ## Claim theorems -/

instance {ε α : Type} [DecidableEq ε] [DecidableEq α] : DecidableEq (Except ε α) :=
  fun a b =>
    match a, b with
    | .ok x, .ok y =>
      if h : x = y then isTrue (by rw [h]) else isFalse (by simp [h])
    | .error x, .error y =>
      if h : x = y then isTrue (by rw [h]) else isFalse (by simp [h])
    | .ok _, .error _ => isFalse (by simp)
    | .error _, .ok _ => isFalse (by simp)

/-- C8: the text normalization (`joinStringsWithoutLineSpace` on a
singleton) is idempotent: a text that is already normalized — none of its
lines is empty — is returned unchanged. -/
theorem C8_join_normalize_idempotent (t : String)
    (h : ∀ l ∈ splitNL t, l ≠ "") :
    joinStringsWithoutLineSpace [t] = t := by
  unfold joinStringsWithoutLineSpace
  rw [show ([t] : List String).flatMap splitNL = splitNL t from by simp]
  rw [filterEmpty_self _ h]
  exact goJoin_splitNL t

/-- Witness for C8 at the already-normalized text `"a\nb"`. -/
theorem C8_join_normalize_idempotent_witness :
    joinStringsWithoutLineSpace ["a\nb"] = "a\nb" :=
  C8_join_normalize_idempotent "a\nb" (by decide)

/-- C9: `SetUseCudaBaseImage` disables the CUDA base image exactly for
the argument `"false"`; every other string — `"true"`, `"auto"`, or any
arbitrary text such as `"asdf"` — enables it. -/
theorem C9_set_use_cuda_base_image (g : Generator) (s : String) :
    (((g.SetUseCudaBaseImage s).useCudaBaseImage = false) ↔ s = "false") ∧
    (g.SetUseCudaBaseImage "auto").useCudaBaseImage = true ∧
    (g.SetUseCudaBaseImage "asdf").useCudaBaseImage = true ∧
    (g.SetUseCudaBaseImage "true").useCudaBaseImage = true ∧
    (g.SetUseCudaBaseImage "false").useCudaBaseImage = false := by
  refine ⟨?_, ?_, ?_, ?_, ?_⟩
  · show ((s != "false") = false) ↔ s = "false"
    rw [bne_eq_false_iff_eq]
  · exact (by decide : (("auto" != "false") = true))
  · exact (by decide : (("asdf" != "false") = true))
  · exact (by decide : (("true" != "false") = true))
  · exact (by decide : (("false" != "false") = false))

/-- C10: `NewGenerator` initializes the `GOARCH` field from
`runtime.GOOS`, so the platform-specific requirements computations
(`pipInstalls`, `pipInstallStage`) receive the OS name as both the OS and
the architecture argument — observed here through a probing
configuration whose requirements function reports its two platform
arguments. -/
theorem C10_goarch_initialized_to_goos
    (c : Config) (dir goos tmpDir relTmp : String)
    (fw : Except String (List String × List String))
    (bisp : List String) (bsd : String)
    (hprobe : c.pythonRequirementsForArch =
      fun goosArg goarchArg _ => .error (goosArg ++ "|" ++ goarchArg)) :
    (NewGenerator c dir goos tmpDir relTmp fw bisp bsd).GOARCH = goos ∧
    (NewGenerator c dir goos tmpDir relTmp fw bisp bsd).GOOS = goos ∧
    (NewGenerator c dir goos tmpDir relTmp fw bisp bsd).pipInstalls
      = .error (goos ++ "|" ++ goos) ∧
    (NewGenerator c dir goos tmpDir relTmp fw bisp bsd).pipInstallStage
      = .error (goos ++ "|" ++ goos) := by
  refine ⟨rfl, rfl, ?_, ?_⟩
  · unfold Generator.pipInstalls
    rw [show (NewGenerator c dir goos tmpDir relTmp fw bisp bsd).config = c from rfl,
      show (NewGenerator c dir goos tmpDir relTmp fw bisp bsd).GOOS = goos from rfl,
      show (NewGenerator c dir goos tmpDir relTmp fw bisp bsd).GOARCH = goos from rfl,
      hprobe]
  · unfold Generator.pipInstallStage
    rw [show (NewGenerator c dir goos tmpDir relTmp fw bisp bsd).config = c from rfl,
      show (NewGenerator c dir goos tmpDir relTmp fw bisp bsd).GOOS = goos from rfl,
      show (NewGenerator c dir goos tmpDir relTmp fw bisp bsd).GOARCH = goos from rfl,
      hprobe]
    rfl

/-- C4: `stripPatchVersion` on the four examples of the spec, and on every
non-empty parseable version: only major.minor is kept and `changed`
holds exactly when the normalized text differs from the input. -/
theorem C4_stripPatchVersion_spec :
    stripPatchVersion "3.10.5" = .ok ("3.10", true) ∧
    stripPatchVersion "3.10" = .ok ("3.10", false) ∧
    stripPatchVersion "" = .ok ("", false) ∧
    (∃ e, stripPatchVersion "not-a-version" = .error e) ∧
    (∀ s v, s ≠ "" → NewVersion s = some v →
      ∃ changed, stripPatchVersion s
          = .ok (toString v.major ++ "." ++ toString v.minor, changed) ∧
        (changed = true ↔ toString v.major ++ "." ++ toString v.minor ≠ s)) := by
  refine ⟨by decide, by decide, by decide, ⟨"Invalid version: not-a-version", by decide⟩, ?_⟩
  intro s v hne hv
  unfold stripPatchVersion
  rw [if_neg hne, hv]
  exact ⟨_, rfl, bne_iff_ne⟩

/-- Witness for the universally quantified part of C4 at `"2.3.4"`. -/
theorem C4_stripPatchVersion_spec_witness :
    ∃ changed, stripPatchVersion "2.3.4"
        = .ok (toString (2 : Nat) ++ "." ++ toString (3 : Nat), changed) ∧
      (changed = true ↔ toString (2 : Nat) ++ "." ++ toString (3 : Nat) ≠ "2.3.4") :=
  C4_stripPatchVersion_spec.2.2.2.2 "2.3.4" ⟨2, 3, 4⟩ (by decide) (by decide)

/-- C3: `BaseImage` applies exactly one of three mutually exclusive
strategies, by precedence: the engine (cog) base image when its flag is
set — a name encoding the matrix-validated triple, or an error —
otherwise the configured accelerator tag when the GPU and CUDA flags are
both set, otherwise exactly `"python:" ++ version ++ "-slim"`. -/
theorem C3_base_image_strategies (g : Generator) :
    (g.useCogBaseImage = true →
      g.BaseImage = g.cogBaseImage ∧
      (∀ s, g.cogBaseImage = .ok s →
        ∃ pv tv triple,
          stripPatchVersion g.config.build.pythonVersion = .ok pv ∧
          stripPatchVersion ((g.config.torchVersion).getD "") = .ok tv ∧
          g.config.newBaseImageGenerator g.config.build.cuda pv.1 tv.1 = .ok triple ∧
          s = g.config.baseImageName triple.1 triple.2.1 triple.2.2)) ∧
    (g.useCogBaseImage = false → (g.config.build.gpu && g.useCudaBaseImage) = true →
      g.BaseImage = g.config.cudaBaseImageTag) ∧
    (g.useCogBaseImage = false → (g.config.build.gpu && g.useCudaBaseImage) = false →
      g.BaseImage = .ok ("python:" ++ g.config.build.pythonVersion ++ "-slim")) := by
  refine ⟨?_, ?_, ?_⟩
  · intro hc
    refine ⟨by simp [Generator.BaseImage, hc], ?_⟩
    intro s hs
    unfold Generator.cogBaseImage at hs
    split at hs
    · cases hs
    · rename_i pvs pvb hpv
      split at hs
      · cases hs
      · rename_i tvs tvb htv
        split at hs
        · cases hs
        · rename_i cv pv2 tv2 htriple
          injection hs with hs
          exact ⟨(pvs, pvb), (tvs, tvb), (cv, pv2, tv2), hpv, htv, htriple, hs.symm⟩
  · intro hc hgpu
    simp [Generator.BaseImage, hc, hgpu]
  · intro hc hgpu
    simp [Generator.BaseImage, hc, hgpu]

/-- C5: with an empty system-package list (and a sane configuration: no
embedded newlines in configured strings, and no run command forging the
fixed apt-install text), no line of the assembled plan is a
system-package install instruction — not even an empty one. -/
theorem C5_no_apt_install_when_no_system_packages (g : Generator) (plan : String)
    (hclean : CleanGen g) (hrs : RunSafety g)
    (hpkgs : g.config.build.systemPackages = [])
    (hok : g.GenerateModelBase = .ok plan) :
    ∀ l ∈ splitNL plan, ¬ aptShaped l := by
  unfold Generator.GenerateModelBase at hok
  cases his : g.generateInitialSteps with
  | error e => rw [his] at hok; cases hok
  | ok s =>
    rw [his] at hok
    injection hok with hok
    subst hok
    intro l hl
    rw [splitNL_flatMap_goJoin _ (by simp)] at hl
    rcases List.mem_flatMap.mp hl with ⟨chunk, hchunk, hin⟩
    simp only [List.mem_cons, List.not_mem_nil, or_false] at hchunk
    rcases hchunk with rfl | rfl | rfl | rfl
    · by_cases hne : l = ""
      · subst hne
        exact not_aptShaped_of_not_nec _ (by decide)
      · exact lineOK_not_aptShaped g l hpkgs hrs (initialSteps_lineOK g _ hclean his l hin hne)
    · rw [splitNL_of_noNL _ (by decide)] at hin
      have hin2 := List.mem_singleton.mp hin
      subst hin2
      exact not_aptShaped_of_not_nec _ (by decide)
    · rw [splitNL_of_noNL _ (by decide)] at hin
      have hin2 := List.mem_singleton.mp hin
      subst hin2
      exact not_aptShaped_of_not_nec _ (by decide)
    · rw [splitNL_of_noNL _ (by decide)] at hin
      have hin2 := List.mem_singleton.mp hin
      subst hin2
      exact not_aptShaped_of_not_nec _ (by decide)

theorem runCommandLines_err (items : List RunItem) (item : RunItem)
    (hmem : item ∈ items)
    (hml : (goTrimSpace item.command).data.contains '\n' = true) :
    ∃ c, (∃ it ∈ items, c = goTrimSpace it.command ∧ c.data.contains '\n' = true) ∧
      runCommandLines items = .error (multilineRunMsgHead ++ c) := by
  induction items with
  | nil => cases hmem
  | cons run rest ih =>
    by_cases hc : (goTrimSpace run.command).data.contains '\n' = true
    · refine ⟨goTrimSpace run.command, ⟨run, List.mem_cons_self _ _, rfl, hc⟩, ?_⟩
      unfold runCommandLines
      rw [if_pos hc]
    · have hmem2 : item ∈ rest := by
        rcases List.mem_cons.mp hmem with rfl | h2
        · exact absurd hml hc
        · exact h2
      rcases ih hmem2 with ⟨c, ⟨it, hit, hc1, hc2⟩, herr⟩
      refine ⟨c, ⟨it, List.mem_cons_of_mem _ hit, hc1, hc2⟩, ?_⟩
      unfold runCommandLines
      rw [if_neg hc, herr]

theorem initialSteps_err_of_runCommands (g : Generator) (e : String)
    (h : g.runCommands = .error e) :
    ∃ e2, g.generateInitialSteps = .error e2 := by
  unfold Generator.generateInitialSteps
  cases hbi : g.BaseImage with
  | error e3 => exact ⟨e3, rfl⟩
  | ok b =>
    cases hip : g.installPython with
    | error e3 => exact ⟨e3, rfl⟩
    | ok ip =>
      cases hai : g.aptInstalls with
      | error e3 => exact ⟨e3, rfl⟩
      | ok ai =>
        rw [h]
        exact ⟨e, rfl⟩

/-- C6: a configured run command whose trimmed text still embeds a line
break makes run-command assembly fail with the multiline-command error;
the message quotes the (first) offending trimmed text verbatim, and the
generation as a whole produces no plan text. -/
theorem C6_multiline_run_command_error (g : Generator) (item : RunItem)
    (hmem : item ∈ g.allRunItems)
    (hml : (goTrimSpace item.command).data.contains '\n' = true) :
    ∃ c, (∃ it ∈ g.allRunItems, c = goTrimSpace it.command ∧
        c.data.contains '\n' = true) ∧
      g.runCommands = .error (multilineRunMsgHead ++ c) ∧
      (∃ e, g.GenerateModelBase = .error e) ∧
      (∀ imageName, ∃ e, g.GenerateModelBaseWithSeparateWeights imageName = .error e) := by
  rcases runCommandLines_err _ item hmem hml with ⟨c, hcin, herr⟩
  have hrc : g.runCommands = .error (multilineRunMsgHead ++ c) := by
    unfold Generator.runCommands
    rw [herr]
  rcases initialSteps_err_of_runCommands g _ hrc with ⟨e2, he2⟩
  refine ⟨c, hcin, hrc, ⟨e2, ?_⟩, ?_⟩
  · unfold Generator.GenerateModelBase
    rw [he2]
  · intro imageName
    unfold Generator.GenerateModelBaseWithSeparateWeights
    cases hfw : g.generateForWeights with
    | error e3 => exact ⟨_, rfl⟩
    | ok t =>
      obtain ⟨wbase, dirs, files⟩ := t
      rw [he2]
      exact ⟨e2, rfl⟩

/-! ## The .dockerignore structure -/

/-- The lines of the fixed `.dockerignore` header (which ends in a
newline, so the header text is these lines each followed by `"\n"`). -/
def dockerignoreHeaderLines : List String :=
  ["# generated by replicate/cog", "__pycache__", "*.pyc", "*.pyo", "*.pyd",
   ".Python", "env", "pip-log.txt", "pip-delete-this-directory.txt", ".tox",
   ".coverage", ".coverage.*", ".cache", "nosetests.xml", "coverage.xml",
   "*.cover", "*.log", ".git", ".mypy_cache", ".pytest_cache", ".hypothesis"]

theorem concatMap_file_lines (files : List String) (hf : ∀ p ∈ files, noNL p) :
    splitNL (concatMap (fun p => p ++ "\n") files) = files ++ [""] := by
  induction files with
  | nil => rfl
  | cons p rest ih =>
    have key : concatMap (fun p => p ++ "\n") (p :: rest)
        = p ++ "\n" ++ concatMap (fun p => p ++ "\n") rest := by
      apply String.ext
      simp [concatMap, String.data_append, List.append_assoc]
    rw [key, splitNL_append_nl, splitNL_of_noNL p (hf p (List.mem_cons_self _ _)),
      ih (fun q hq => hf q (List.mem_cons_of_mem p hq))]
    rfl

theorem concatMap_dir_lines (dirs : List String) (X : String)
    (hd : ∀ p ∈ dirs, noNL p) :
    splitNL (concatMap (fun p => p ++ "\n" ++ p ++ "/**/*\n") dirs ++ X) =
      dirs.flatMap (fun p => [p, p ++ "/**/*"]) ++ splitNL X := by
  induction dirs with
  | nil =>
    rw [show concatMap (fun p => p ++ "\n" ++ p ++ "/**/*\n") [] = "" from rfl]
    rw [show ("" : String) ++ X = X from String.ext (by simp [String.data_append])]
    rfl
  | cons p rest ih =>
    have key : concatMap (fun p => p ++ "\n" ++ p ++ "/**/*\n") (p :: rest) ++ X
        = p ++ "\n" ++ ((p ++ "/**/*") ++ "\n" ++
            (concatMap (fun p => p ++ "\n" ++ p ++ "/**/*\n") rest ++ X)) := by
      apply String.ext
      simp [concatMap, String.data_append, List.append_assoc]
    rw [key, splitNL_append_nl, splitNL_append_nl,
      splitNL_of_noNL p (hd p (List.mem_cons_self _ _)),
      splitNL_of_noNL (p ++ "/**/*")
        (noNL_append _ _ (hd p (List.mem_cons_self _ _)) (by decide)),
      ih (fun q hq => hd q (List.mem_cons_of_mem p hq))]
    rfl

set_option maxRecDepth 40000 in
/-- C7: the ignore text is the fixed header, then per directory (in
discovery order) its bare name and a recursive wildcard, then per file
(in discovery order) its bare name, with no deduplication; in particular
for dirs `["weights"]` and files `["a.bin"]` it is the header followed
by `"weights\nweights/**/*\na.bin\n"`. -/
theorem C7_dockerignore_structure (dirs files : List String)
    (hd : ∀ p ∈ dirs, noNL p) (hf : ∀ p ∈ files, noNL p) :
    makeDockerignoreForWeights ["weights"] ["a.bin"]
        = DockerignoreHeader ++ "weights\nweights/**/*\na.bin\n" ∧
    splitNL (makeDockerignoreForWeights dirs files) =
      dockerignoreHeaderLines ++ dirs.flatMap (fun p => [p, p ++ "/**/*"]) ++
        files ++ [""] := by
  constructor
  · decide
  · unfold makeDockerignoreForWeights
    rw [show DockerignoreHeader
      = "# generated by replicate/cog\n__pycache__\n*.pyc\n*.pyo\n*.pyd\n.Python\nenv\npip-log.txt\npip-delete-this-directory.txt\n.tox\n.coverage\n.coverage.*\n.cache\nnosetests.xml\ncoverage.xml\n*.cover\n*.log\n.git\n.mypy_cache\n.pytest_cache\n.hypothesis"
        ++ "\n" from by decide]
    rw [splitNL_append_nl, concatMap_dir_lines dirs _ hd, concatMap_file_lines files hf]
    rw [show splitNL "# generated by replicate/cog\n__pycache__\n*.pyc\n*.pyo\n*.pyd\n.Python\nenv\npip-log.txt\npip-delete-this-directory.txt\n.tox\n.coverage\n.coverage.*\n.cache\nnosetests.xml\ncoverage.xml\n*.cover\n*.log\n.git\n.mypy_cache\n.pytest_cache\n.hypothesis"
      = dockerignoreHeaderLines from by decide]
    simp [List.append_assoc]

set_option maxRecDepth 40000 in
/-- Witness for C7 at dirs `["weights"]`, files `["a.bin"]`. -/
theorem C7_dockerignore_structure_witness :
    makeDockerignoreForWeights ["weights"] ["a.bin"]
        = DockerignoreHeader ++ "weights\nweights/**/*\na.bin\n" ∧
    splitNL (makeDockerignoreForWeights ["weights"] ["a.bin"]) =
      dockerignoreHeaderLines ++
        (["weights"] : List String).flatMap (fun p => [p, p ++ "/**/*"]) ++
        ["a.bin"] ++ [""] :=
  C7_dockerignore_structure ["weights"] ["a.bin"] (by decide) (by decide)

theorem weightCopyLine_ne (p : String) : weightCopyLine p ≠ "COPY . /src" := by
  intro he
  have h5 : (weightCopyLine p).data.get? 5 = some '-' := by
    unfold weightCopyLine
    rw [String.data_append, String.data_append, String.data_append]
    rw [List.append_assoc, List.append_assoc]
    rw [List.get?_append (by decide)]
    decide
  rw [he] at h5
  exact absurd h5 (by decide)

/-- C2: whenever weights are split into their own stage, the final line
of the assembled plan is the copy-remaining-build-context instruction
`COPY . /src`, and that line occurs exactly once in the plan. -/
theorem C2_final_copy_last_and_unique (g : Generator) (imageName : String)
    (dirs files : List String) (wb df di : String)
    (hclean : CleanGen g)
    (hw : g.findWeightsResult = .ok (dirs, files))
    (hpaths : ∀ p ∈ dirs ++ files, noNL p)
    (him : noNL imageName)
    (hok : g.GenerateModelBaseWithSeparateWeights imageName = .ok (wb, df, di)) :
    (splitNL df).getLast? = some "COPY . /src" ∧
    List.count "COPY . /src" (splitNL df) = 1 := by
  rcases separateWeights_lines g imageName dirs files wb df di hw hpaths him hok
    with ⟨s, his, hdf⟩
  rw [hdf]
  have hnotin1 : "COPY . /src" ∉ injectWeightsBase imageName (splitNL s) := by
    intro hmem
    rcases mem_injectWeightsBase _ _ _ hmem with heq | hl
    · exact absurd heq.symm (str_ne_of_head _ _ (by
        rw [str_head_of _ _ 'F' (str_head_of _ _ 'F' (str_head_of _ _ 'F' (by decide)))]
        decide))
    · exact absurd rfl
        (lineOK_ne_copy_src g _ (initialSteps_lineOK g _ hclean his _ hl (by decide)))
  have hnotin2 : "COPY . /src" ∉ (dirs ++ files).map weightCopyLine := by
    intro hmem
    rcases List.mem_map.mp hmem with ⟨p, _, hp⟩
    exact weightCopyLine_ne p hp
  constructor
  · rw [List.getLast?_append_of_ne_nil _ (by simp)]
    decide
  · rw [List.count_append, List.count_append,
      List.count_eq_zero.mpr hnotin1, List.count_eq_zero.mpr hnotin2]
    decide

/-- C1 (amended): in the separate-weights plan the per-path
copy-from-weights-stage instructions (one per discovered directory and
file, directories first then files, in discovery order) appear directly
*before* the working-directory/port/entrypoint block — not after it, as
claimed — and the single copy-remaining-build-context instruction is the
last line of the whole plan. -/
theorem C1_weight_copies_before_entrypoint_block (g : Generator) (imageName : String)
    (dirs files : List String) (wb df di : String)
    (hw : g.findWeightsResult = .ok (dirs, files))
    (hpaths : ∀ p ∈ dirs ++ files, noNL p)
    (him : noNL imageName)
    (hok : g.GenerateModelBaseWithSeparateWeights imageName = .ok (wb, df, di)) :
    ∃ pre, splitNL df = pre ++ (dirs ++ files).map weightCopyLine ++
      ["WORKDIR /src", "EXPOSE 5000",
       "CMD [\"python\", \"-m\", \"cog.server.http\"]", "COPY . /src"] := by
  rcases separateWeights_lines g imageName dirs files wb df di hw hpaths him hok
    with ⟨s, his, hdf⟩
  exact ⟨injectWeightsBase imageName (splitNL s), hdf⟩

/-! ## A concrete configuration for witnesses and counterexamples -/

/-- A minimal sane configuration: CPU-only, python 3.10, no system
packages, no run commands, empty requirements. -/
def cxConfig : Config :=
  { build :=
      { gpu := false
        cuda := ""
        pythonVersion := "3.10"
        systemPackages := []
        run := []
        preInstall := [] }
    torchVersion := none
    torchvisionVersion := none
    cudaBaseImageTag := .error "no cuda tag"
    pythonRequirementsForArch := fun _ _ _ => .ok ""
    newBaseImageGenerator := fun _ _ _ => .error "unsupported"
    baseImageName := fun _ _ _ => "" }

/-- A generator over `cxConfig`, with the weight discovery returning one
directory and one file. -/
def cxGen : Generator :=
  { config := cxConfig
    dir := "/proj"
    GOOS := "linux"
    GOARCH := "linux"
    useCudaBaseImage := true
    useCogBaseImage := false
    tmpDir := "/proj/.cog/tmp/build1"
    relativeTmpDir := ".cog/tmp/build1"
    findWeightsResult := .ok (["weights"], ["a.bin"])
    modelDirs := []
    modelFiles := []
    baseImageSystemPackages := []
    buildStageDeps := "" }

/-- The plan `cxGen.GenerateModelBase` produces. -/
def cxPlan : String :=
  "#syntax=docker/dockerfile:1.4\nFROM python:3.10 as deps\nCOPY .cog/tmp/build1/cog-0.0.1.dev-py3-none-any.whl /tmp/cog-0.0.1.dev-py3-none-any.whl\nRUN --mount=type=cache,target=/root/.cache/pip pip install -t /dep /tmp/cog-0.0.1.dev-py3-none-any.whl\nFROM python:3.10-slim\nENV DEBIAN_FRONTEND=noninteractive\nENV PYTHONUNBUFFERED=1\nENV LD_LIBRARY_PATH=$LD_LIBRARY_PATH:/usr/lib/x86_64-linux-gnu:/usr/local/nvidia/lib64:/usr/local/nvidia/bin\nENV NVIDIA_DRIVER_CAPABILITIES=all\nRUN --mount=type=cache,target=/var/cache/apt,sharing=locked set -eux; \\\napt-get update -qq && \\\napt-get install -qqy --no-install-recommends curl; \\\nrm -rf /var/lib/apt/lists/*; \\\nTINI_VERSION=v0.19.0; \\\nTINI_ARCH=\"$(dpkg --print-architecture)\"; \\\ncurl -sSL -o /sbin/tini \"https://github.com/krallin/tini/releases/download/${TINI_VERSION}/tini-${TINI_ARCH}\"; \\\nchmod +x /sbin/tini\nENTRYPOINT [\"/sbin/tini\", \"--\"]\nCOPY --from=deps --link /dep /usr/local/lib/python3.10/site-packages\nWORKDIR /src\nEXPOSE 5000\nCMD [\"python\", \"-m\", \"cog.server.http\"]"

/-- The weights-stage Dockerfile of
`cxGen.GenerateModelBaseWithSeparateWeights "test-image"`. -/
def cxWb : String :=
  "#syntax=docker/dockerfile:1.4\nFROM scratch\n\nCOPY weights /src/weights\nCOPY a.bin /src/a.bin"

/-- The main Dockerfile of
`cxGen.GenerateModelBaseWithSeparateWeights "test-image"`. -/
def cxDf : String :=
  "#syntax=docker/dockerfile:1.4\nFROM test-image-weights AS weights\nFROM python:3.10 as deps\nCOPY .cog/tmp/build1/cog-0.0.1.dev-py3-none-any.whl /tmp/cog-0.0.1.dev-py3-none-any.whl\nRUN --mount=type=cache,target=/root/.cache/pip pip install -t /dep /tmp/cog-0.0.1.dev-py3-none-any.whl\nFROM python:3.10-slim\nENV DEBIAN_FRONTEND=noninteractive\nENV PYTHONUNBUFFERED=1\nENV LD_LIBRARY_PATH=$LD_LIBRARY_PATH:/usr/lib/x86_64-linux-gnu:/usr/local/nvidia/lib64:/usr/local/nvidia/bin\nENV NVIDIA_DRIVER_CAPABILITIES=all\nRUN --mount=type=cache,target=/var/cache/apt,sharing=locked set -eux; \\\napt-get update -qq && \\\napt-get install -qqy --no-install-recommends curl; \\\nrm -rf /var/lib/apt/lists/*; \\\nTINI_VERSION=v0.19.0; \\\nTINI_ARCH=\"$(dpkg --print-architecture)\"; \\\ncurl -sSL -o /sbin/tini \"https://github.com/krallin/tini/releases/download/${TINI_VERSION}/tini-${TINI_ARCH}\"; \\\nchmod +x /sbin/tini\nENTRYPOINT [\"/sbin/tini\", \"--\"]\nCOPY --from=deps --link /dep /usr/local/lib/python3.10/site-packages\nCOPY --from=weights --link /src/weights /src/weights\nCOPY --from=weights --link /src/a.bin /src/a.bin\nWORKDIR /src\nEXPOSE 5000\nCMD [\"python\", \"-m\", \"cog.server.http\"]\nCOPY . /src"

/-- The .dockerignore text of
`cxGen.GenerateModelBaseWithSeparateWeights "test-image"`. -/
def cxDi : String :=
  DockerignoreHeader ++ "weights\nweights/**/*\na.bin\n"

set_option maxRecDepth 1000000 in
set_option maxHeartbeats 1000000 in
/-- Counterexample for C1 as stated: at this concrete generation the
per-path copy-from-weights instruction occurs in the plan, yet no
occurrence is at or after the `WORKDIR /src` line — the copies come
*before* the working-directory/port/entrypoint block, not after it as
the claim asserts. -/
theorem C1_counterexample :
    cxGen.GenerateModelBaseWithSeparateWeights "test-image" = .ok (cxWb, cxDf, cxDi) ∧
    ((splitNL cxDf).contains "COPY --from=weights --link /src/weights /src/weights" = true) ∧
    (((splitNL cxDf).dropWhile (fun l => l != "WORKDIR /src")).contains
        "COPY --from=weights --link /src/weights /src/weights" = false) :=
  ⟨rfl, by decide, by decide⟩

set_option maxRecDepth 1000000 in
set_option maxHeartbeats 1000000 in
/-- Witness for C1 (amended) at the concrete generation. -/
theorem C1_weight_copies_before_entrypoint_block_witness :
    ∃ pre, splitNL cxDf = pre ++ ((["weights"] ++ ["a.bin"]).map weightCopyLine) ++
      ["WORKDIR /src", "EXPOSE 5000",
       "CMD [\"python\", \"-m\", \"cog.server.http\"]", "COPY . /src"] :=
  C1_weight_copies_before_entrypoint_block cxGen "test-image" ["weights"] ["a.bin"]
    cxWb cxDf cxDi (by decide) (by decide) (by decide) rfl

set_option maxRecDepth 1000000 in
set_option maxHeartbeats 1000000 in
/-- Witness for C2 at the concrete generation. -/
theorem C2_final_copy_last_and_unique_witness :
    (splitNL cxDf).getLast? = some "COPY . /src" ∧
    List.count "COPY . /src" (splitNL cxDf) = 1 :=
  C2_final_copy_last_and_unique cxGen "test-image" ["weights"] ["a.bin"]
    cxWb cxDf cxDi (by decide) (by decide) (by decide) (by decide) rfl

/-- Witness for C3 at `cxGen` (plain strategy). -/
theorem C3_base_image_strategies_witness :
    cxGen.BaseImage = .ok ("python:" ++ cxGen.config.build.pythonVersion ++ "-slim") :=
  (C3_base_image_strategies cxGen).2.2 (by decide) (by decide)

set_option maxRecDepth 1000000 in
set_option maxHeartbeats 1000000 in
/-- Witness for C5 at the concrete generation: the plan is produced, and
its `FROM python:3.10-slim` line (like every other) is not an apt-install
instruction. -/
theorem C5_no_apt_install_when_no_system_packages_witness :
    cxGen.GenerateModelBase = .ok cxPlan ∧ ¬ aptShaped "FROM python:3.10-slim" :=
  ⟨rfl,
   C5_no_apt_install_when_no_system_packages cxGen cxPlan (by decide) (by decide)
     (by decide) rfl "FROM python:3.10-slim" (by decide)⟩

/-- A generator whose single run command embeds a newline after
trimming. -/
def cxBadGen : Generator :=
  { cxGen with config :=
    { cxConfig with build := { cxConfig.build with run := [⟨" a\nb ", []⟩] } } }

set_option maxRecDepth 1000000 in
set_option maxHeartbeats 1000000 in
/-- Witness for C6 at the concrete bad generator. -/
theorem C6_multiline_run_command_error_witness :
    ∃ c, (∃ it ∈ cxBadGen.allRunItems, c = goTrimSpace it.command ∧
        c.data.contains '\n' = true) ∧
      cxBadGen.runCommands = .error (multilineRunMsgHead ++ c) ∧
      (∃ e, cxBadGen.GenerateModelBase = .error e) ∧
      (∀ imageName, ∃ e,
        cxBadGen.GenerateModelBaseWithSeparateWeights imageName = .error e) :=
  C6_multiline_run_command_error cxBadGen ⟨" a\nb ", []⟩ (by decide) (by decide)

/-- A configuration whose requirements computation reports the platform
arguments it is called with. -/
def probeConfig : Config :=
  { build :=
      { gpu := false
        cuda := ""
        pythonVersion := "3.10"
        systemPackages := []
        run := []
        preInstall := [] }
    torchVersion := none
    torchvisionVersion := none
    cudaBaseImageTag := .error "no cuda tag"
    pythonRequirementsForArch := fun goosArg goarchArg _ => .error (goosArg ++ "|" ++ goarchArg)
    newBaseImageGenerator := fun _ _ _ => .error "unsupported"
    baseImageName := fun _ _ _ => "" }

/-- Witness for C10 at the probing configuration on platform `"linux"`. -/
theorem C10_goarch_initialized_to_goos_witness :
    (NewGenerator probeConfig "/proj" "linux" "/t" ".t" (.ok ([], [])) [] "").GOARCH = "linux" ∧
    (NewGenerator probeConfig "/proj" "linux" "/t" ".t" (.ok ([], [])) [] "").GOOS = "linux" ∧
    (NewGenerator probeConfig "/proj" "linux" "/t" ".t" (.ok ([], [])) [] "").pipInstalls
      = .error ("linux" ++ "|" ++ "linux") ∧
    (NewGenerator probeConfig "/proj" "linux" "/t" ".t" (.ok ([], [])) [] "").pipInstallStage
      = .error ("linux" ++ "|" ++ "linux") :=
  C10_goarch_initialized_to_goos probeConfig "/proj" "linux" "/t" ".t"
    (.ok ([], [])) [] "" rfl

end Dockerfile
